import Mathlib

/-!
Verification of the UBL Gate core against its implementation.

This file gives a shallow embedding, in Lean 4, of the parts of the
UBL-CORE repository that the verified properties talk about:

* the canonicalization function rho and the knock validator (modelled from
  the specification, since only their test vectors ship in the sources),
* the WASM adapter header parser (crates/ubl_runtime/src/pipeline/types.rs),
* the hub event construction (services/ubl_gate/src/events.rs),
* the authorship resolver (crates/ubl_runtime/src/authorship.rs),
* the write access policy (services/ubl_gate/src/state.rs),
* the world scope check (services/ubl_gate/src/utils.rs),
* the receipt and chip GET handlers (services/ubl_gate/src/receipt.rs, chip.rs),
* the outbox delivery function (services/ubl_gate/src/outbox.rs).

Strings are Lean `String`s, but every operation on them is implemented over
`String.data` (lists of characters) so that all definitions evaluate inside
the kernel.  Cryptographic primitives (BLAKE3, NRF-1 encoding) and the
Unicode NFC normalization are treated as abstract function parameters; the
theorems assume only the properties the specification relies on (for NFC,
idempotence).
-/

namespace UBL

/-! ## Byte-lexicographic string order

The spec sorts object keys "in byte-lexicographic order" of their UTF-8
encodings.  On valid UTF-8, byte order of the encodings coincides with
code-point order, so we compare the character lists directly.
-/

/-- Lexicographic (code-point) order on character lists. -/
def charsLe : List Char → List Char → Bool
  | [], _ => true
  | _ :: _, [] => false
  | a :: as, b :: bs => if a < b then true else if b < a then false else charsLe as bs

/-- Byte-lexicographic comparison of strings (via their character lists). -/
def strLe (a b : String) : Bool := charsLe a.data b.data

theorem charsLe_total : ∀ as bs : List Char, charsLe as bs = true ∨ charsLe bs as = true
  | [], _ => Or.inl rfl
  | _ :: _, [] => Or.inr rfl
  | a :: as, b :: bs => by
    by_cases hab : a < b
    · exact Or.inl (by simp [charsLe, hab])
    · by_cases hba : b < a
      · exact Or.inr (by simp [charsLe, hba, asymm hba])
      · rcases charsLe_total as bs with h | h
        · exact Or.inl (by simp [charsLe, hab, hba, h])
        · exact Or.inr (by simp [charsLe, hab, hba, h])

theorem charsLe_trans : ∀ as bs cs : List Char,
    charsLe as bs = true → charsLe bs cs = true → charsLe as cs = true
  | [], _, _, _, _ => rfl
  | a :: as, [], cs, h, _ => by simp [charsLe] at h
  | a :: as, b :: bs, [], _, h => by simp [charsLe] at h
  | a :: as, b :: bs, c :: cs, h1, h2 => by
    by_cases hab : a < b
    · by_cases hbc : b < c
      · simp [charsLe, lt_trans hab hbc]
      · by_cases hcb : c < b
        · simp [charsLe, hbc, hcb] at h2
        · have : b = c := le_antisymm (not_lt.mp hcb) (not_lt.mp hbc)
          simp [charsLe, this ▸ hab]
    · by_cases hba : b < a
      · simp [charsLe, hab, hba] at h1
      · have hab' : a = b := le_antisymm (not_lt.mp hba) (not_lt.mp hab)
        subst hab'
        by_cases hbc : a < c
        · simp [charsLe, hbc]
        · by_cases hcb : c < a
          · simp [charsLe, hbc, hcb] at h2
          · have : a = c := le_antisymm (not_lt.mp hcb) (not_lt.mp hbc)
            subst this
            simp [charsLe, hab] at h1 h2 ⊢
            exact charsLe_trans as bs cs h1 h2

theorem charsLe_antisymm : ∀ as bs : List Char,
    charsLe as bs = true → charsLe bs as = true → as = bs
  | [], [], _, _ => rfl
  | [], _ :: _, _, h => by simp [charsLe] at h
  | _ :: _, [], h, _ => by simp [charsLe] at h
  | a :: as, b :: bs, h1, h2 => by
    by_cases hab : a < b
    · simp [charsLe, hab, asymm hab] at h2
    · by_cases hba : b < a
      · simp [charsLe, hab, hba] at h1
      · have he : a = b := le_antisymm (not_lt.mp hba) (not_lt.mp hab)
        subst he
        simp [charsLe, hab] at h1 h2
        exact congrArg (a :: ·) (charsLe_antisymm as bs h1 h2)

theorem strLe_total (a b : String) : strLe a b = true ∨ strLe b a = true :=
  charsLe_total a.data b.data

theorem strLe_trans {a b c : String} (h1 : strLe a b = true) (h2 : strLe b c = true) :
    strLe a c = true :=
  charsLe_trans a.data b.data c.data h1 h2

theorem strLe_antisymm {a b : String} (h1 : strLe a b = true) (h2 : strLe b a = true) :
    a = b := by
  have h := charsLe_antisymm a.data b.data h1 h2
  cases a; cases b; exact congrArg String.mk h

theorem strLe_refl (a : String) : strLe a a = true := by
  rcases strLe_total a a with h | h <;> exact h

/-! ## Small character/string helpers used by the embeddings -/

/-- A C0 control character (U+0000 to U+001F). -/
def isCtl (c : Char) : Bool := c.toNat < 32

/-- Does a string contain a control character? -/
def hasCtl (s : String) : Bool := s.data.any isCtl

/-- ASCII decimal digit. -/
def isDigitCh (c : Char) : Bool := 48 ≤ c.toNat && c.toNat ≤ 57

/-- ASCII hexadecimal digit (mirrors Rust char::is_ascii_hexdigit). -/
def isHexCh (c : Char) : Bool :=
  isDigitCh c || (97 ≤ c.toNat && c.toNat ≤ 102) || (65 ≤ c.toNat && c.toNat ≤ 70)

/-- Decimal-string grammar for numeric atoms: optional leading minus sign,
then one or more ASCII digits. -/
def isDecString (s : String) : Bool :=
  match s.data with
  | [] => false
  | c :: rest =>
    if c = '-' then rest ≠ [] && rest.all isDigitCh
    else (c :: rest).all isDigitCh

/-- A decimal string denoting zero: all digits are zero (ignoring a sign). -/
def decStringIsZero (s : String) : Bool :=
  match s.data with
  | c :: rest => if c = '-' then rest.all (· = '0') else (c :: rest).all (· = '0')
  | [] => true

/-- Whitespace in the sense of `str::trim`, restricted to the ASCII
whitespace characters that occur in header and world strings. -/
def isWs (c : Char) : Bool := c = ' ' || c = '\t' || c = '\n' || c = '\r'

/-- Trim whitespace from both ends (model of Rust `str::trim`). -/
def strTrim (s : String) : String :=
  String.mk (((s.data.dropWhile isWs).reverse.dropWhile isWs).reverse)

/-- Remove every trailing occurrence of a character (model of Rust
`str::trim_end_matches(c)`). -/
def strTrimEnd (c : Char) (s : String) : String :=
  String.mk ((s.data.reverse.dropWhile (· = c)).reverse)

/-- Remove every leading and trailing occurrence of a character (model of
Rust `str::trim_matches(c)`). -/
def strTrimBoth (c : Char) (s : String) : String :=
  String.mk (((s.data.dropWhile (· = c)).reverse.dropWhile (· = c)).reverse)

/-- List prefix test. -/
def charsPre : List Char → List Char → Bool
  | [], _ => true
  | _ :: _, [] => false
  | a :: as, b :: bs => a = b && charsPre as bs

/-- String prefix test (model of Rust `str::starts_with`). -/
def strStarts (s pre : String) : Bool := charsPre pre.data s.data

/-- Drop the first `n` characters of a string. -/
def strDropN (s : String) (n : Nat) : String := String.mk (s.data.drop n)

/-- UTF-8 byte length of one character. -/
def chUtf8Len (c : Char) : Nat :=
  if c.toNat < 128 then 1
  else if c.toNat < 2048 then 2
  else if c.toNat < 65536 then 3
  else 4

/-- UTF-8 byte length of a string (model of Rust `str::len`). -/
def strByteLen (s : String) : Nat := (s.data.map chUtf8Len).sum

/-- ASCII lowercase (model of Rust `eq_ignore_ascii_case` building block). -/
def chAsciiLower (c : Char) : Char :=
  if 65 ≤ c.toNat && c.toNat ≤ 90 then Char.ofNat (c.toNat + 32) else c

/-- ASCII-lowercase an entire string. -/
def strAsciiLower (s : String) : String := String.mk (s.data.map chAsciiLower)

/-- ASCII uppercase of one character. -/
def chAsciiUpper (c : Char) : Char :=
  if 97 ≤ c.toNat && c.toNat ≤ 122 then Char.ofNat (c.toNat - 32) else c

/-- ASCII-uppercase an entire string. -/
def strAsciiUpper (s : String) : String := String.mk (s.data.map chAsciiUpper)

/-- Case-insensitive ASCII string equality (Rust `eq_ignore_ascii_case`). -/
def strEqIgnoreCase (a b : String) : Bool := strAsciiLower a == strAsciiLower b

/-- Split a string at the first occurrence of a character, returning the part
before and the part after (model of Rust `str::split_once`). -/
def splitOnceCh (c : Char) (s : String) : Option (String × String) :=
  go [] s.data
where
  go (acc : List Char) : List Char → Option (String × String)
    | [] => none
    | x :: xs => if x = c then some (String.mk acc.reverse, String.mk xs) else go (x :: acc) xs

/-- The single-quote character, used to reconstruct formatted messages. -/
def sq : String := String.mk [Char.ofNat 39]

/-! ## JSON values

Decoded JSON values in the shape the gate works on (the "dynamic JSON to
typed envelope" sum of the design notes).  Arrays and objects are separate
inductives so that every function on them is structurally recursive and
evaluates in the kernel.  A non-integer JSON number is carried symbolically
(`float`): the embedded code only ever classifies it, never computes with it.
-/

mutual

inductive Json where
  | null
  | bool (b : Bool)
  | int (n : Int)
  | float (repr : String)
  | str (s : String)
  | arr (items : JArr)
  | obj (entries : JObj)

inductive JArr where
  | nil
  | cons (hd : Json) (tl : JArr)

inductive JObj where
  | nil
  | cons (key : String) (val : Json) (tl : JObj)

end

namespace Json

/-- Field access on an object (serde_json `Value::get`): `none` when the
value is not an object or the key is absent. -/
def get (v : Json) (k : String) : Option Json :=
  match v with
  | .obj es => go es
  | _ => none
where
  go : JObj → Option Json
    | .nil => none
    | .cons k' v' t => if k = k' then some v' else go t

/-- Mirror of `Value::as_str`. -/
def asStr : Json → Option String
  | .str s => some s
  | _ => none

/-- Mirror of `Value::as_object` (just the test; entries come from `get`). -/
def isObj : Json → Bool
  | .obj _ => true
  | _ => false

/-- Mirror of `Value::as_u64`: an integer in the `u64` range. -/
def asU64 : Json → Option Int
  | .int n => if 0 ≤ n && n < 2 ^ 64 then some n else none
  | _ => none

/-- Mirror of `Value::as_array` restricted to `filter_map as_str`: collect the string
elements of an array value. -/
def strElems : Json → Option (List String)
  | .arr items => some (go items)
  | _ => none
where
  go : JArr → List String
    | .nil => []
    | .cons (.str s) t => s :: go t
    | .cons _ t => go t

end Json

namespace JObj

/-- Keys of an object, in entry order. -/
def keys : JObj → List String
  | .nil => []
  | .cons k _ t => k :: keys t

/-- Does the object bind a key? -/
def hasKey (k : String) : JObj → Bool
  | .nil => false
  | .cons k' _ t => k == k' || hasKey k t

/-- Number of entries. -/
def size : JObj → Nat
  | .nil => 0
  | .cons _ _ t => size t + 1

/-- Does some key repeat? -/
def hasDup : JObj → Bool
  | .nil => false
  | .cons k _ t => hasKey k t || hasDup t

/-- Does some key contain a control character? -/
def keysHaveCtl : JObj → Bool
  | .nil => false
  | .cons k _ t => hasCtl k || keysHaveCtl t

/-- Apply a function to every key, keeping entry order. -/
def mapKeys (f : String → String) : JObj → JObj
  | .nil => .nil
  | .cons k v t => .cons (f k) v (mapKeys f t)

/-- Drop entries whose value is JSON null. -/
def stripNulls : JObj → JObj
  | .nil => .nil
  | .cons _ .null t => stripNulls t
  | .cons k v t => .cons k v (stripNulls t)

/-- Insert one entry into a key-sorted object. -/
def insortEntry (k : String) (v : Json) : JObj → JObj
  | .nil => .cons k v .nil
  | .cons k' v' t =>
    if strLe k k' then .cons k v (.cons k' v' t) else .cons k' v' (insortEntry k v t)

/-- Sort entries by key in byte-lexicographic order (insertion sort). -/
def sortEntries : JObj → JObj
  | .nil => .nil
  | .cons k v t => insortEntry k v (sortEntries t)

/-- Adjacent keys are weakly ordered. -/
def sortedLe : JObj → Bool
  | .nil => true
  | .cons _ _ .nil => true
  | .cons k _ (.cons k' v' t) => strLe k k' && sortedLe (.cons k' v' t)

/-- Entry membership (key and value at some position). -/
def memEntry (k : String) (v : Json) : JObj → Prop
  | .nil => False
  | .cons k' v' t => (k = k' ∧ v = v') ∨ memEntry k v t

/-- No entry holds a null value. -/
def noNulls : JObj → Bool
  | .nil => true
  | .cons _ .null _ => false
  | .cons _ _ t => noNulls t

/-- Key lookup in entry order (first match wins, as in serde_json maps). -/
def lookup (k : String) : JObj → Option Json
  | .nil => none
  | .cons k' v t => if k = k' then some v else lookup k t

/-- Concatenation of entry lists. -/
def cat : JObj → JObj → JObj
  | .nil, fs => fs
  | .cons k v t, fs => .cons k v (cat t fs)

end JObj

/-! ## The canonicalizer rho

Modelled from the spec: the canonicalizer crate itself is not part of the
sources here (only its contract test vectors are), so rho is built from
section 4.1 and section 3 of the specification.  The Unicode NFC
normalization is an abstract parameter `nfc`; the theorems assume only that
it is idempotent, which is a property of NFC itself.
-/

/-- Canonicalization failures of rho (spec section 4.1). -/
inductive RhoError where
  | controlChar
  | badNumericAtom
  | rawFloat
  | duplicateKeyAfterNFC
deriving DecidableEq

/-- Idempotence of the normalization function; the only property of Unicode
NFC the development relies on. -/
def NfcIdem (nfc : String → String) : Prop := ∀ s, nfc (nfc s) = nfc s

/-- The canonical form of a `dec/1` numeric atom (keys already in
byte-lexicographic order). -/
def decAtom (m : String) (s : Int) : JObj :=
  .cons "@num" (.str "dec/1") (.cons "m" (.str m) (.cons "s" (.int s) .nil))

/-- The canonical form of a `rat/1` numeric atom. -/
def ratAtom (p q : String) : JObj :=
  .cons "@num" (.str "rat/1") (.cons "p" (.str p) (.cons "q" (.str q) .nil))

/-- Scale fits in an `i32`. -/
def i32ok (s : Int) : Bool := decide (-(2 ^ 31) ≤ s) && decide (s < 2 ^ 31)

/-- Modelled from the spec: validation of a numeric-atom object (an object
carrying the key `@num`).  Accepts exactly the two tagged shapes of section 3
and returns the canonical (key-sorted) atom; anything else is malformed. -/
def validAtom (es : JObj) : Option Json :=
  match es.lookup "@num" with
  | some (.str tag) =>
    if tag = "dec/1" then
      match es.lookup "m", es.lookup "s" with
      | some (.str m), some (.int s) =>
        if es.size = 3 && isDecString m && i32ok s then some (.obj (decAtom m s)) else none
      | _, _ => none
    else if tag = "rat/1" then
      match es.lookup "p", es.lookup "q" with
      | some (.str p), some (.str q) =>
        if es.size = 3 && isDecString p && isDecString q && !decStringIsZero q then
          some (.obj (ratAtom p q))
        else none
      | _, _ => none
    else none
  | _ => none

mutual

/-- Modelled from the spec: the canonicalizer rho (spec section 4.1).
Strings are NFC-normalized and control characters rejected; raw floats are
rejected; objects first have their keys normalized, then a collision after
NFC is a hard error, then numeric atoms are validated, and plain objects
are canonicalized entrywise, null-valued entries stripped, and entries
sorted in byte-lexicographic key order. -/
def rho (nfc : String → String) : Json → Except RhoError Json
  | .null => .ok .null
  | .bool b => .ok (.bool b)
  | .int n => .ok (.int n)
  | .float _ => .error .rawFloat
  | .str s =>
    let t := nfc s
    if hasCtl t then .error .controlChar else .ok (.str t)
  | .arr items =>
    match rhoArr nfc items with
    | .ok out => .ok (.arr out)
    | .error e => .error e
  | .obj es =>
    let es1 := JObj.mapKeys nfc es
    if es1.hasDup then .error .duplicateKeyAfterNFC
    else if es1.keysHaveCtl then .error .controlChar
    else if es1.hasKey "@num" then
      match validAtom es1 with
      | some w => .ok w
      | none => .error .badNumericAtom
    else
      match rhoEntries nfc es with
      | .ok es2 => .ok (.obj (JObj.sortEntries (JObj.stripNulls es2)))
      | .error e => .error e

/-- Canonicalize the elements of an array (nulls preserved). -/
def rhoArr (nfc : String → String) : JArr → Except RhoError JArr
  | .nil => .ok .nil
  | .cons v t =>
    match rho nfc v, rhoArr nfc t with
    | .ok v', .ok t' => .ok (.cons v' t')
    | .error e, _ => .error e
    | _, .error e => .error e

/-- Normalize the keys and canonicalize the values of object entries. -/
def rhoEntries (nfc : String → String) : JObj → Except RhoError JObj
  | .nil => .ok .nil
  | .cons k v t =>
    match rho nfc v, rhoEntries nfc t with
    | .ok v', .ok t' => .ok (.cons (nfc k) v' t')
    | .error e, _ => .error e
    | _, .error e => .error e

end

/-- A toy normalization exhibiting an NFC collision: it maps the
decomposed spelling of "Cafe" + combining acute to the precomposed form,
exactly the collision pair of the repository's contract test vectors. -/
def nfcToy (s : String) : String := if s == "Café" then "Café" else s

/-! ## The knock validator

Modelled from the spec: the `ubl_runtime::knock` module is not part of the
sources here (only its vector-matrix tests are), so the validator is built
from section 4.3 of the specification.  The JSON parser is an abstract
parameter (the classification property under study does not depend on the
JSON grammar itself), applied to the raw bytes; the limits MAX_DEPTH and
MAX_ARRAY_LEN are parameters as well.
-/

/-- Knock rejection reasons, with their wire codes (spec section 4.3/6). -/
inductive KnockError where
  | invalidUtf8
  | parseFailure
  | nonObjectRoot
  | dupKeys
  | depthExceeded
  | arrayTooLong
  | missingEnvelope
  | rawFloat
  | intOutOfRange
  | badNumericAtom
  | controlChar
deriving DecidableEq

/-- The KNOCK-NNN wire code of each rejection reason (spec section 6). -/
def KnockError.code : KnockError → String
  | .invalidUtf8 => "KNOCK-005"
  | .parseFailure => "KNOCK-010"
  | .nonObjectRoot => "KNOCK-007"
  | .dupKeys => "KNOCK-004"
  | .depthExceeded => "KNOCK-002"
  | .arrayTooLong => "KNOCK-003"
  | .missingEnvelope => "KNOCK-006"
  | .rawFloat => "KNOCK-008"
  | .intOutOfRange => "KNOCK-011"
  | .badNumericAtom => "KNOCK-009"
  | .controlChar => "KNOCK-011"

/-- A UTF-8 continuation byte. -/
def contB (b : Nat) : Bool := 128 ≤ b && b ≤ 191

/-- RFC 3629 UTF-8 validity of a byte sequence. -/
def validUtf8 : List Nat → Bool
  | [] => true
  | b :: rest =>
    if b ≤ 0x7F then validUtf8 rest
    else if 0xC2 ≤ b && b ≤ 0xDF then
      match rest with
      | c1 :: more => contB c1 && validUtf8 more
      | [] => false
    else if b = 0xE0 then
      match rest with
      | c1 :: c2 :: more => (0xA0 ≤ c1 && c1 ≤ 0xBF) && contB c2 && validUtf8 more
      | _ => false
    else if (0xE1 ≤ b && b ≤ 0xEC) || b = 0xEE || b = 0xEF then
      match rest with
      | c1 :: c2 :: more => contB c1 && contB c2 && validUtf8 more
      | _ => false
    else if b = 0xED then
      match rest with
      | c1 :: c2 :: more => (0x80 ≤ c1 && c1 ≤ 0x9F) && contB c2 && validUtf8 more
      | _ => false
    else if b = 0xF0 then
      match rest with
      | c1 :: c2 :: c3 :: more =>
        (0x90 ≤ c1 && c1 ≤ 0xBF) && contB c2 && contB c3 && validUtf8 more
      | _ => false
    else if 0xF1 ≤ b && b ≤ 0xF3 then
      match rest with
      | c1 :: c2 :: c3 :: more => contB c1 && contB c2 && contB c3 && validUtf8 more
      | _ => false
    else if b = 0xF4 then
      match rest with
      | c1 :: c2 :: c3 :: more =>
        (0x80 ≤ c1 && c1 ≤ 0x8F) && contB c2 && contB c3 && validUtf8 more
      | _ => false
    else false

mutual

/-- Nesting depth of a value. -/
def jdepth : Json → Nat
  | .arr items => 1 + adepth items
  | .obj es => 1 + odepth es
  | _ => 1

def adepth : JArr → Nat
  | .nil => 0
  | .cons v t => max (jdepth v) (adepth t)

def odepth : JObj → Nat
  | .nil => 0
  | .cons _ v t => max (jdepth v) (odepth t)

end

mutual

/-- Some object in the document has two keys equal after NFC expansion. -/
def jHasDupKeys (nfc : String → String) : Json → Bool
  | .arr items => aHasDupKeys nfc items
  | .obj es => (JObj.mapKeys nfc es).hasDup || oHasDupKeys nfc es
  | _ => false

def aHasDupKeys (nfc : String → String) : JArr → Bool
  | .nil => false
  | .cons v t => jHasDupKeys nfc v || aHasDupKeys nfc t

def oHasDupKeys (nfc : String → String) : JObj → Bool
  | .nil => false
  | .cons _ v t => jHasDupKeys nfc v || oHasDupKeys nfc t

end

/-- Length of an array. -/
def alen : JArr → Nat
  | .nil => 0
  | .cons _ t => alen t + 1

mutual

/-- Some array in the document is longer than the limit. -/
def jArrTooLong (maxLen : Nat) : Json → Bool
  | .arr items => (decide (maxLen < alen items)) || aArrTooLong maxLen items
  | .obj es => oArrTooLong maxLen es
  | _ => false

def aArrTooLong (maxLen : Nat) : JArr → Bool
  | .nil => false
  | .cons v t => jArrTooLong maxLen v || aArrTooLong maxLen t

def oArrTooLong (maxLen : Nat) : JObj → Bool
  | .nil => false
  | .cons _ v t => jArrTooLong maxLen v || oArrTooLong maxLen t

end

mutual

/-- Some raw (IEEE-754) number occurs in the document. -/
def jHasFloat : Json → Bool
  | .float _ => true
  | .arr items => aHasFloat items
  | .obj es => oHasFloat es
  | _ => false

def aHasFloat : JArr → Bool
  | .nil => false
  | .cons v t => jHasFloat v || aHasFloat t

def oHasFloat : JObj → Bool
  | .nil => false
  | .cons _ v t => jHasFloat v || oHasFloat t

end

mutual

/-- Some integer outside the i64 range occurs in the document. -/
def jHasBadInt : Json → Bool
  | .int n => decide (n < -(2 ^ 63)) || decide (2 ^ 63 ≤ n)
  | .arr items => aHasBadInt items
  | .obj es => oHasBadInt es
  | _ => false

def aHasBadInt : JArr → Bool
  | .nil => false
  | .cons v t => jHasBadInt v || aHasBadInt t

def oHasBadInt : JObj → Bool
  | .nil => false
  | .cons _ v t => jHasBadInt v || oHasBadInt t

end

mutual

/-- Every object carrying the `@num` key is a well-formed numeric atom. -/
def jAtomsOk : Json → Bool
  | .arr items => aAtomsOk items
  | .obj es => (!es.hasKey "@num" || (validAtom es).isSome) && oAtomsOk es
  | _ => true

def aAtomsOk : JArr → Bool
  | .nil => true
  | .cons v t => jAtomsOk v && aAtomsOk t

def oAtomsOk : JObj → Bool
  | .nil => true
  | .cons _ v t => jAtomsOk v && oAtomsOk t

end

mutual

/-- Some string (value or key) contains a C0 control character. -/
def jHasCtl : Json → Bool
  | .str s => hasCtl s
  | .arr items => aHasCtl items
  | .obj es => oHasCtl es
  | _ => false

def aHasCtl : JArr → Bool
  | .nil => false
  | .cons v t => jHasCtl v || aHasCtl t

def oHasCtl : JObj → Bool
  | .nil => false
  | .cons k v t => hasCtl k || jHasCtl v || oHasCtl t

end

/-- Split a character list on a separator character. -/
def splitCh (c : Char) : List Char → List (List Char)
  | [] => [[]]
  | x :: xs =>
    let r := splitCh c xs
    if x = c then [] :: r
    else
      match r with
      | h :: t => (x :: h) :: t
      | [] => [[x]]

/-- Modelled from the spec: the `@world` grammar `a/<app>/t/<tenant>[...]`
(slash-delimited, first segment `a`, third segment `t`, all segments
non-empty); the validator itself lives in the ubl_ai_nrf1 crate, absent
from these sources. -/
def validWorld (w : String) : Bool :=
  match splitCh '/' w.data with
  | s0 :: s1 :: s2 :: s3 :: rest =>
    s0 == ['a'] && !s1.isEmpty && s2 == ['t'] && !s3.isEmpty && rest.all (!·.isEmpty)
  | _ => false

/-- Envelope fields: `@type` a non-empty string and `@world` grammar-valid. -/
def envelopeOk (v : Json) : Bool :=
  (match v.get "@type" with
   | some (.str t) => !(t == "")
   | _ => false) &&
  (match v.get "@world" with
   | some (.str w) => validWorld w
   | _ => false)

/-- Modelled from the spec: the knock validator (spec section 4.3), checks
enforced in the listed order over the raw inbound bytes.  `parse` is the
JSON parser applied to the (UTF-8 valid) bytes; `none` is a parse failure. -/
def knock (parse : List Nat → Option Json) (nfc : String → String)
    (maxDepth maxArrLen : Nat) (bytes : List Nat) : Except KnockError Json :=
  if !validUtf8 bytes then .error .invalidUtf8
  else
    match parse bytes with
    | none => .error .parseFailure
    | some v =>
      if !v.isObj then .error .nonObjectRoot
      else if jHasDupKeys nfc v then .error .dupKeys
      else if decide (maxDepth < jdepth v) then .error .depthExceeded
      else if jArrTooLong maxArrLen v then .error .arrayTooLong
      else if !envelopeOk v then .error .missingEnvelope
      else if jHasFloat v then .error .rawFloat
      else if jHasBadInt v then .error .intOutOfRange
      else if !jAtomsOk v then .error .badNumericAtom
      else if jHasCtl v then .error .controlChar
      else .ok v

/-! ## WASM adapter header parsing

Embedding of `AdapterRuntimeInfo::parse_optional` from
crates/ubl_runtime/src/pipeline/types.rs.
-/

/-- Pipeline failure as produced by the adapter header parser. -/
inductive PipelineError where
  | invalidChip (msg : String)
deriving DecidableEq

/-- The adapter runtime declaration carried by a chip body. -/
structure AdapterRuntimeInfo where
  wasm_sha256 : String
  abi_version : String
  wasm_cid : Option String
  wasm_b64 : Option String
  fuel_budget : Option Int
  timeout_ms : Option Int
  capabilities : List String
  attestation_signature_b64 : Option String
  attestation_trust_anchor : Option String
  required_receipt_claims : List String
deriving DecidableEq

/-- 64 bytes long, all ASCII hex digits (the `is_hex` test of the source:
`wasm_sha256.len() == 64 && chars().all(is_ascii_hexdigit)`). -/
def is64Hex (s : String) : Bool := strByteLen s == 64 && s.data.all isHexCh

/-- Embeds `AdapterRuntimeInfo::parse_optional`: `Ok(None)` when the body carries
no adapter object; field extraction, then the `is_hex` test on
`wasm_sha256`, then the `abi_version == "1.0"` test, in the source's
order. -/
def parse_optional (body : Json) : Except PipelineError (Option AdapterRuntimeInfo) :=
  match body.get "adapter" with
  | none => .ok none
  | some adapter =>
    if !adapter.isObj then
      .error (.invalidChip "WASM_ABI_INVALID_PAYLOAD: adapter must be object")
    else
      match (adapter.get "wasm_sha256").bind Json.asStr with
      | none => .error (.invalidChip "WASM_ABI_INVALID_PAYLOAD: adapter.wasm_sha256 missing")
      | some wasm_sha256 =>
        match (adapter.get "abi_version").bind Json.asStr with
        | none => .error (.invalidChip "WASM_ABI_MISSING_VERSION: adapter.abi_version missing")
        | some abi_version =>
          let wasm_cid := (adapter.get "wasm_cid").bind Json.asStr
          let wasm_b64 := (adapter.get "wasm_b64").bind Json.asStr
          let fuel_budget := (adapter.get "fuel_budget").bind Json.asU64
          let timeout_ms := (adapter.get "timeout_ms").bind Json.asU64
          let capabilities := ((adapter.get "capabilities").bind Json.strElems).getD []
          let attestation_signature_b64 :=
            (adapter.get "attestation_signature_b64").bind Json.asStr
          let attestation_trust_anchor :=
            (adapter.get "attestation_trust_anchor").bind Json.asStr
          let required_receipt_claims :=
            ((adapter.get "required_receipt_claims").bind Json.strElems).getD []
          if !is64Hex wasm_sha256 then
            .error (.invalidChip
              "WASM_VERIFY_HASH_MISMATCH: adapter.wasm_sha256 must be 64 hex chars")
          else if abi_version ≠ "1.0" then
            .error (.invalidChip
              ("WASM_ABI_UNSUPPORTED_VERSION: adapter.abi_version unsupported: " ++ abi_version))
          else
            .ok (some {
              wasm_sha256 := wasm_sha256,
              abi_version := abi_version,
              wasm_cid := wasm_cid,
              wasm_b64 := wasm_b64,
              fuel_budget := fuel_budget,
              timeout_ms := timeout_ms,
              capabilities := capabilities,
              attestation_signature_b64 := attestation_signature_b64,
              attestation_trust_anchor := attestation_trust_anchor,
              required_receipt_claims := required_receipt_claims })

/-- A chip body whose adapter has both a malformed `wasm_sha256` and an
unsupported `abi_version`: the probe input for the enforcement order. -/
def c4Body : Json :=
  .obj (.cons "adapter" (.obj (.cons "wasm_sha256" (.str "zz")
    (.cons "abi_version" (.str "2.0") .nil))) .nil)

/-! ## Hub events

Embedding of `normalize_stage`, `deterministic_event_id` and
`to_hub_event` from services/ubl_gate/src/events.rs.  The `ReceiptEvent`
struct lives in `ubl_runtime::event_bus`, absent from these sources; its
fields are typed as `to_hub_event` uses them.
-/

/-- The pipeline event as consumed by the hub-event builder. -/
structure ReceiptEvent where
  receipt_cid : String
  pipeline_stage : String
  world : Option String
  metadata : Json
  decision : Option String
  receipt_type : String
  timestamp : String
  latency_ms : Option Int
  duration_ms : Option Int
  fuel_used : Option Int
  actor : String
  subject_did : Option String
  knock_cid : Option String
  artifact_cids : List String
  binary_hash : String
  build_meta : Json
  input_cid : Option String
  output_cid : Option String

/-- Embeds `normalize_stage`: canonical stage labels, otherwise the
ASCII-uppercased form of the lowercased input. -/
def normalize_stage (stage : String) : String :=
  let l := strAsciiLower stage
  if l == "knock" then "KNOCK"
  else if l == "wa" || l == "write_ahead" then "WA"
  else if l == "check" then "CHECK"
  else if l == "tr" || l == "transition" then "TR"
  else if l == "wf" || l == "write_finished" then "WF"
  else if l == "registry" then "REGISTRY"
  else strAsciiUpper l

/-- Embeds `deterministic_event_id`: `evt:<receipt_cid>:<stage>:<in>:<out>`,
absent CIDs rendered as the empty string. -/
def deterministic_event_id (event : ReceiptEvent) (stage : String) : String :=
  "evt:" ++ event.receipt_cid ++ ":" ++ stage ++ ":" ++
    (event.input_cid.getD "") ++ ":" ++ (event.output_cid.getD "")

/-- An optional string as a JSON value (serde `Option` serialization). -/
def optStr : Option String → Json
  | some s => .str s
  | none => .null

/-- An optional integer as a JSON value. -/
def optInt : Option Int → Json
  | some n => .int n
  | none => .null

/-- A string list as a JSON array. -/
def strArr : List String → JArr
  | [] => .nil
  | s :: t => .cons (.str s) (strArr t)

/-- The `receipt` sub-object of a hub event: `cid` and `decision` always
present, `code` and `knock_cid` removed when null. -/
def hubReceiptObj (event : ReceiptEvent) (code : Option String)
    (decision : Option String) : JObj :=
  .cons "cid" (.str event.receipt_cid) (.cons "decision" (optStr decision)
    (match code, event.knock_cid with
     | some c, some k => .cons "code" (.str c) (.cons "knock_cid" (.str k) .nil)
     | some c, none => .cons "code" (.str c) .nil
     | none, some k => .cons "knock_cid" (.str k) .nil
     | none, none => .nil))

/-- The `actor` sub-object: `kid` always present, `did` and `cap` removed
when null. -/
def hubActorObj (event : ReceiptEvent) (cap : Option String) : JObj :=
  .cons "kid" (.str event.actor)
    (match event.subject_did, cap with
     | some d, some c => .cons "did" (.str d) (.cons "cap" (.str c) .nil)
     | some d, none => .cons "did" (.str d) .nil
     | none, some c => .cons "cap" (.str c) .nil
     | none, none => .nil)

/-- Embeds `to_hub_event`: the normalized `ubl/event` envelope. -/
def to_hub_event (event : ReceiptEvent) : Json :=
  let stage := normalize_stage event.pipeline_stage
  let event_id := deterministic_event_id event stage
  let world := event.world.getD "a/system"
  let chip_id := ((event.metadata.get "@id").bind Json.asStr).getD ""
  let chip_ver := ((event.metadata.get "@ver").bind Json.asStr).getD ""
  let code := (event.metadata.get "code").bind Json.asStr
  let cap := (event.metadata.get "cap").bind Json.asStr
  let decision := event.decision.map strAsciiUpper
  .obj (.cons "@type" (.str "ubl/event") (.cons "@ver" (.str "1.0.0")
    (.cons "@id" (.str event_id) (.cons "@world" (.str world)
    (.cons "source" (.str "pipeline") (.cons "stage" (.str stage)
    (.cons "when" (.str event.timestamp)
    (.cons "chip" (.obj (.cons "type" (.str event.receipt_type)
      (.cons "id" (.str chip_id) (.cons "ver" (.str chip_ver) .nil))))
    (.cons "receipt" (.obj (hubReceiptObj event code decision))
    (.cons "perf" (.obj (.cons "latency_ms" (optInt (event.latency_ms.or event.duration_ms))
      (.cons "fuel" (optInt event.fuel_used) (.cons "mem_kb" .null .nil))))
    (.cons "actor" (.obj (hubActorObj event cap))
    (.cons "artifacts" (.arr (strArr event.artifact_cids))
    (.cons "runtime" (.obj (.cons "binary_hash" (.str event.binary_hash)
      (.cons "build" event.build_meta .nil)))
    (.cons "labels" (.obj .nil) .nil))))))))))))))

/-- A sample receipt event for the determinism witness. -/
def evSampleA : ReceiptEvent :=
  { receipt_cid := "b3:aa", pipeline_stage := "wf", world := none,
    metadata := .obj .nil, decision := some "allow", receipt_type := "ubl/wf",
    timestamp := "2026-01-01T00:00:00Z", latency_ms := none, duration_ms := some 5,
    fuel_used := none, actor := "kid1", subject_did := none, knock_cid := none,
    artifact_cids := [], binary_hash := "bh", build_meta := .null,
    input_cid := some "b3:in", output_cid := none }

/-- The same tuple `(receipt_cid, stage, input_cid, output_cid)` with every
other field changed (and the stage spelled differently before
normalization). -/
def evSampleB : ReceiptEvent :=
  { receipt_cid := "b3:aa", pipeline_stage := "WF", world := some "a/x/t/y",
    metadata := .obj (.cons "@id" (.str "doc-1") .nil), decision := some "deny",
    receipt_type := "ubl/check", timestamp := "2027-05-05T05:05:05Z",
    latency_ms := some 9, duration_ms := none, fuel_used := some 7,
    actor := "kid2", subject_did := some "did:x", knock_cid := some "b3:kn",
    artifact_cids := ["b3:af"], binary_hash := "bh2", build_meta := .obj .nil,
    input_cid := some "b3:in", output_cid := none }

/-! ## Authorship resolution

Embedding of `resolve_subject_did` and `extract_explicit_did` from
crates/ubl_runtime/src/authorship.rs.  The claims fingerprint (NRF-1
encoding + BLAKE3 CID, crates absent from these sources) is an abstract
function parameter `cidOf`.
-/

/-- Transport-level hints (`ActorHint`; `ip_pfx` embeds the source field
holding the masked forwarded address). -/
structure ActorHint where
  ip_pfx : Option String
  user_agent_hash : Option String

/-- Keep an optional string only when it starts with `did:`. -/
def didFilter : Option String → Option String
  | some s => if strStarts s "did:" then some s else none
  | none => none

/-- Embeds `extract_explicit_did`: `body.actor.did`, then `body.did`, then
`body.owner_did`, each kept only when it begins with `did:`. -/
def extract_explicit_did (body : Json) : Option String :=
  match didFilter (((body.get "actor").bind (fun a => a.get "did")).bind Json.asStr) with
  | some d => some d
  | none =>
    match didFilter ((body.get "did").bind Json.asStr) with
    | some d => some d
    | none => didFilter ((body.get "owner_did").bind Json.asStr)

/-- Embeds `copy_if_str`: prepend `key` when the actor object binds it to a
string. -/
def addIfStr (actor : Json) (key : String) (rest : JObj) : JObj :=
  match (actor.get key).bind Json.asStr with
  | some s => .cons key (.str s) rest
  | none => rest

/-- The stable actor string claims, in the source's copy order. -/
def claimsFromActor (body : Option Json) : JObj :=
  match body.bind (fun b => b.get "actor") with
  | some actor =>
    if actor.isObj then
      addIfStr actor "installation_key" (addIfStr actor "client_pubkey"
        (addIfStr actor "device_id" (addIfStr actor "session_id"
          (addIfStr actor "kid" .nil))))
    else .nil
  | none => .nil

/-- The transport-hint claims. -/
def hintEntries (hint : ActorHint) : JObj :=
  match hint.ip_pfx, hint.user_agent_hash with
  | some ip, some ua =>
    .cons "ip_prefix" (.str ip) (.cons "user_agent_hash" (.str ua) .nil)
  | some ip, none => .cons "ip_prefix" (.str ip) .nil
  | none, some ua => .cons "user_agent_hash" (.str ua) .nil
  | none, none => .nil

/-- The full claims object fed to the fingerprint. -/
def anonClaims (body : Option Json) (hint : Option ActorHint) : JObj :=
  JObj.cat (claimsFromActor body)
    (match hint with
     | some h => hintEntries h
     | none => .nil)

/-- Embeds `resolve_subject_did`: explicit DID claims win; otherwise the
deterministic anonymous DID from the claims fingerprint. -/
def resolve_subject_did (cidOf : JObj → String) (body : Option Json)
    (hint : Option ActorHint) : String :=
  match body.bind extract_explicit_did with
  | some did => did
  | none => "did:ubl:anon:" ++ cidOf (anonClaims body hint)

/-! ## Write access policy

Embedding of `WriteAccessPolicy` from services/ubl_gate/src/state.rs and
`extract_api_key` from services/ubl_gate/src/utils.rs.  The onboarding-type
predicate (`ubl_runtime::auth::is_onboarding_type`, absent from these
sources) is an abstract parameter.
-/

/-- The closed error-code set of the gate (spec section 6). -/
inductive ErrorCode where
  | knockRejected
  | unauthorized
  | policyDenied
  | notFound
  | invalidCid
  | invalidSignature
  | signError
  | canonError
  | tamperDetected
  | conflict
  | tooManyRequests
  | unavailable
  | internalError
deriving DecidableEq

/-- Modelled from the spec: the wire spelling of each error code
(section 6 closed set). -/
def ErrorCode.wire : ErrorCode → String
  | .knockRejected => "KNOCK_REJECTED"
  | .unauthorized => "UNAUTHORIZED"
  | .policyDenied => "POLICY_DENIED"
  | .notFound => "NOT_FOUND"
  | .invalidCid => "INVALID_CID"
  | .invalidSignature => "INVALID_SIGNATURE"
  | .signError => "SIGN_ERROR"
  | .canonError => "CANON_ERROR"
  | .tamperDetected => "TAMPER_DETECTED"
  | .conflict => "CONFLICT"
  | .tooManyRequests => "TOO_MANY_REQUESTS"
  | .unavailable => "UNAVAILABLE"
  | .internalError => "INTERNAL_ERROR"

/-- Modelled from the spec: HTTP status attached to each error code
(sections 4.8 and 7: client faults 400/422, unauthorized 401, policy
denials 403, not-found 404, rate limits 429, infrastructure 500/503). -/
def ErrorCode.http_status : ErrorCode → Nat
  | .knockRejected => 422
  | .unauthorized => 401
  | .policyDenied => 403
  | .notFound => 404
  | .invalidCid => 400
  | .invalidSignature => 422
  | .signError => 422
  | .canonError => 422
  | .tamperDetected => 422
  | .conflict => 409
  | .tooManyRequests => 429
  | .unavailable => 503
  | .internalError => 500

/-- The request headers the write-auth path reads. -/
structure Headers where
  x_api_key : Option String
  authorization : Option String

/-- Embeds `extract_api_key`: `x-api-key` (trimmed, non-empty) first, else an
`Authorization` header with an `apikey`, `api-key` or `bearer` scheme. -/
def extract_api_key (h : Headers) : Option String :=
  match
    (match h.x_api_key with
     | some raw =>
       let k := strTrim raw
       if k == "" then none else some k
     | none => none)
  with
  | some k => some k
  | none =>
    match h.authorization with
    | none => none
    | some auth =>
      match splitOnceCh ' ' auth with
      | none => none
      | some (scheme, token) =>
        if strEqIgnoreCase scheme "apikey" || strEqIgnoreCase scheme "api-key" ||
            strEqIgnoreCase scheme "bearer" then
          let t := strTrim token
          if t == "" then none else some t
        else none

/-- The configured write-access policy. -/
structure WriteAccessPolicy where
  auth_required : Bool
  api_keys : List String
  public_worlds : List String
  public_types : List String

/-- Embeds `WriteAccessPolicy::matches_api_key`. -/
def matches_api_key (pol : WriteAccessPolicy) (headers : Option Headers) : Bool :=
  match headers with
  | none => false
  | some h =>
    match extract_api_key h with
    | none => false
    | some presented => pol.api_keys.any (· == presented)

/-- Embeds `WriteAccessPolicy::allows_public_unauthenticated`. -/
def allows_public_unauthenticated (isOnboarding : String → Bool)
    (pol : WriteAccessPolicy) (chip_type world : String) : Bool :=
  if isOnboarding chip_type then true
  else pol.public_worlds.any (· == world) && pol.public_types.any (· == chip_type)

/-- The denial message of `authorize_write`. -/
def authorize_write_deny_msg (chip_type world : String) : String :=
  "write auth required for @type=" ++ sq ++ chip_type ++ sq ++ " @world=" ++ sq ++
    world ++ sq ++ "; provide X-API-Key or use allowed public onboarding lane"

/-- Embeds `WriteAccessPolicy::authorize_write`. -/
def authorize_write (isOnboarding : String → Bool) (pol : WriteAccessPolicy)
    (headers : Option Headers) (chip_type world : String) :
    Except (ErrorCode × String) Unit :=
  if !pol.auth_required && pol.api_keys.isEmpty then .ok ()
  else if matches_api_key pol headers then .ok ()
  else if allows_public_unauthenticated isOnboarding pol chip_type world then .ok ()
  else .error (.unauthorized, authorize_write_deny_msg chip_type world)

/-! ## World scope check and the bearer-token denial

Embedding of `world_scope_allows` from services/ubl_gate/src/utils.rs and
of the denial message built in `submit_chip_bytes`
(services/ubl_gate/src/chip.rs).
-/

/-- Embeds `world_scope_allows`: trim whitespace and trailing slashes from both;
empty strings never authorize; `*` authorizes everything; otherwise exact
match or slash-delimited prefix containment. -/
def world_scope_allows (scope_world target_world : String) : Bool :=
  let scope := strTrimEnd '/' (strTrim scope_world)
  let target := strTrimEnd '/' (strTrim target_world)
  if scope == "" || target == "" then false
  else if scope == "*" then true
  else if target == scope then true
  else if strStarts target scope then
    strStarts (strDropN target scope.data.length) "/"
  else false

/-- The authorization rule exactly as the specification words it (trim
both, then `*`, equality, or slash-delimited prefix) — for comparison with
the implementation, which additionally rejects empty strings. -/
def world_scope_allows_spec (scope_world target_world : String) : Bool :=
  let scope := strTrimEnd '/' (strTrim scope_world)
  let target := strTrimEnd '/' (strTrim target_world)
  scope == "*" || target == scope || strStarts target (scope ++ "/")

/-- The denial message of the bearer world/scope check in
`submit_chip_bytes`. -/
def token_world_deny_message (token_world target_world : String) : String :=
  "token world " ++ sq ++ token_world ++ sq ++
    " does not authorize target world " ++ sq ++ target_world ++ sq

/-! ## Receipt and chip GET handlers

Embedding of the control flow of `get_receipt`
(services/ubl_gate/src/receipt.rs) and `get_chip`
(services/ubl_gate/src/chip.rs): CID shape check, then the
`If-None-Match` short-circuit, then store availability, lookup and
auth-chain verification.  Stores and the verifier are abstract function
parameters.
-/

/-- Outcome of a store fetch (`Result<Option<_>, _>`). -/
inductive StoreFetch where
  | found (record : Json)
  | missing
  | failed (msg : String)

/-- The observable part of a handler response: HTTP status and the error
code of the envelope, when any. -/
structure HandlerResponse where
  status : Nat
  code : Option String
deriving DecidableEq

/-- The store/verify tail of `get_receipt` (runs only when the
`If-None-Match` short-circuit did not fire). -/
def get_receipt_lookup (store : Option (String → StoreFetch))
    (verify : String → Json → Bool) (cid : String) : HandlerResponse :=
  match store with
  | none => { status := 503, code := some "UNAVAILABLE" }
  | some fetch =>
    match fetch cid with
    | .found receipt =>
      if verify cid receipt then { status := 200, code := none }
      else { status := 422, code := some "TAMPER_DETECTED" }
    | .missing => { status := 404, code := some "NOT_FOUND" }
    | .failed _ => { status := 500, code := some "INTERNAL_ERROR" }

/-- Does the `If-None-Match` value match the ETag of `cid` (equal to the
quoted form, or equal to `cid` after stripping quotes)? -/
def inmMatches (cid inm : String) : Bool :=
  inm == "\"" ++ cid ++ "\"" || strTrimBoth '"' inm == cid

/-- Embeds `get_receipt`. -/
def get_receipt (store : Option (String → StoreFetch))
    (verify : String → Json → Bool) (cid : String)
    (if_none_match : Option String) : HandlerResponse :=
  if !strStarts cid "b3:" then { status := 400, code := some "INVALID_CID" }
  else
    match if_none_match with
    | some inm =>
      if inmMatches cid inm then { status := 304, code := none }
      else get_receipt_lookup store verify cid
    | none => get_receipt_lookup store verify cid

/-- The store tail of `get_chip`. -/
def get_chip_lookup (chipFetch : String → StoreFetch) (cid : String) : HandlerResponse :=
  match chipFetch cid with
  | .found _ => { status := 200, code := none }
  | .missing => { status := 404, code := some "NOT_FOUND" }
  | .failed _ => { status := 500, code := some "INTERNAL_ERROR" }

/-- Embeds `get_chip`. -/
def get_chip (chipFetch : String → StoreFetch) (cid : String)
    (if_none_match : Option String) : HandlerResponse :=
  if !strStarts cid "b3:" then { status := 400, code := some "INVALID_CID" }
  else
    match if_none_match with
    | some inm =>
      if inmMatches cid inm then { status := 304, code := none }
      else get_chip_lookup chipFetch cid
    | none => get_chip_lookup chipFetch cid

/-! ## Outbox delivery

Embedding of `deliver_emit_receipt_event` from
services/ubl_gate/src/outbox.rs; the HTTP client is an abstract function
parameter.
-/

/-- A pending outbox row as the delivery function consumes it. -/
structure OutboxEvent where
  id : Nat
  event_type : String
  attempts : Nat
  payload_json : Json

/-- An HTTP response as the delivery function inspects it. -/
structure HttpResponse where
  status : Nat
  body : String

/-- reqwest `StatusCode::is_success`: the 2xx range. -/
def is_success (status : Nat) : Bool := 200 ≤ status && status < 300

/-- The JSON body POSTed to the outbox endpoint. -/
def outbox_payload (event : OutboxEvent) : Json :=
  .obj (.cons "event_id" (.int event.id) (.cons "event_type" (.str event.event_type)
    (.cons "attempt" (.int (event.attempts + 1))
    (.cons "payload" event.payload_json .nil))))

/-- Embeds `deliver_emit_receipt_event`: no configured endpoint means the event is
dropped as delivered (`Ok`); with an endpoint, a send failure or a
non-success status is an error. -/
def deliver_emit_receipt_event (send : String → Json → Except String HttpResponse)
    (endpoint : Option String) (event : OutboxEvent) : Except String Unit :=
  match endpoint with
  | none => .ok ()
  | some ep =>
    match send ep (outbox_payload event) with
    | .error e => .error ("outbox http send failed: " ++ e)
    | .ok response =>
      if !is_success response.status then
        .error ("outbox endpoint returned " ++ toString response.status ++
          " body=" ++ String.mk (response.body.data.take 240))
      else .ok ()

/-! ## Bearer-token write denial

Embedding of the resolved-bearer branch of `submit_chip_bytes`
(services/ubl_gate/src/chip.rs lines 92-145) together with
`scope_allows_any` (services/ubl_gate/src/utils.rs) and the observable
slice of `deny_write_with_receipt` (services/ubl_gate/src/utils.rs).  The
pipeline's `process_knock_rejection` (ubl_runtime, absent from these
sources) — which mints and stores the `ubl/knock.deny.v1` deny receipt —
is an abstract function parameter.
-/

/-- A resolved bearer session (`McpWsAuth`, services/ubl_gate/src/state.rs). -/
structure McpWsAuth where
  token_id : String
  token_cid : String
  world : String
  scope : List String
  subject_did : Option String

/-- Embeds `scope_allows_any`: a `*` scope, or any required scope present. -/
def scope_allows_any (scope : List String) (required : List String) : Bool :=
  scope.any (· == "*") || required.any (fun needle => scope.any (· == needle))

/-- The outcome of `process_knock_rejection`: the stored deny receipt and
its identifiers. -/
structure KnockRejection where
  receipt_json : Json
  receipt_cid : String
  subject_did : String
  knock_cid : String

/-- The observable part of a chip-submission denial response: HTTP status,
error code, message, decision marker and the attached deny receipt (absent
when minting the receipt failed and the pipeline error envelope was
returned instead). -/
structure DenyResponse where
  status : Nat
  code : String
  message : String
  decision : Option String
  receipt : Option Json
  receipt_cid : Option String

/-- Embeds `deny_write_with_receipt`: process the knock rejection; on
success answer with the error code's HTTP status, its wire code, the
denial message, `decision:"Deny"` and the deny receipt; on failure answer
with the pipeline error envelope (no receipt). -/
def deny_write_with_receipt
    (processKnock : String → String → String → String →
      Except (ErrorCode × String) KnockRejection)
    (knock_cid reason_code reason_msg : String) (err_code : ErrorCode)
    (subject_did : String) : DenyResponse :=
  match processKnock knock_cid reason_code reason_msg subject_did with
  | .ok result =>
    { status := ErrorCode.http_status err_code, code := ErrorCode.wire err_code,
      message := reason_msg, decision := some "Deny",
      receipt := some result.receipt_json, receipt_cid := some result.receipt_cid }
  | .error (ec, msg) =>
    { status := ErrorCode.http_status ec, code := ErrorCode.wire ec,
      message := msg, decision := none, receipt := none, receipt_cid := none }

/-- Embeds the `Ok(Some(auth))` bearer branch of `submit_chip_bytes`: a
token whose scope allows writing is checked by `world_scope_allows`
against the target world; on failure the request is denied through
`deny_write_with_receipt` with `PolicyDenied` and the token-world message;
a non-write scope is denied likewise; otherwise the write proceeds
authorized via the token (carrying its subject DID hint). -/
def bearer_write_gate
    (processKnock : String → String → String → String →
      Except (ErrorCode × String) KnockRejection)
    (auth : McpWsAuth) (world : String) (knock_cid : String)
    (fallback_did : String) : Except DenyResponse (Option String) :=
  if scope_allows_any auth.scope ["write", "chip:write", "mcp:write"] then
    if !world_scope_allows auth.world world then
      .error (deny_write_with_receipt processKnock knock_cid
        (ErrorCode.wire .policyDenied)
        (token_world_deny_message auth.world world) .policyDenied
        (auth.subject_did.getD fallback_did))
    else .ok auth.subject_did
  else
    .error (deny_write_with_receipt processKnock knock_cid
      (ErrorCode.wire .policyDenied) "token scope does not allow write" .policyDenied
      (auth.subject_did.getD fallback_did))

/-- A sample stored deny receipt for the bearer-denial witness. -/
def sampleRejection : KnockRejection :=
  { receipt_json := .obj (.cons "@type" (.str "ubl/knock.deny.v1") .nil),
    receipt_cid := "b3:deny", subject_did := "did:ubl:anon:fb",
    knock_cid := "b3:knock" }

namespace JObj

theorem insortEntry_hasKey (q k : String) (v : Json) :
    ∀ es : JObj, hasKey q (insortEntry k v es) = (q == k || hasKey q es)
  | .nil => by simp [insortEntry, hasKey]
  | .cons k' v' t => by
    by_cases h : strLe k k'
    · simp [insortEntry, h, hasKey]
    · simp [insortEntry, h, hasKey, insortEntry_hasKey q k v t]
      cases q == k <;> cases q == k' <;> simp

theorem sortEntries_hasKey (q : String) :
    ∀ es : JObj, hasKey q (sortEntries es) = hasKey q es
  | .nil => rfl
  | .cons k v t => by
    simp [sortEntries, hasKey, insortEntry_hasKey, sortEntries_hasKey q t]

theorem insortEntry_noDup (k : String) (v : Json) :
    ∀ es : JObj, hasDup es = false → hasKey k es = false →
      hasDup (insortEntry k v es) = false
  | .nil, _, _ => rfl
  | .cons k' v' t, hd, hk => by
    simp [hasDup] at hd
    simp [hasKey] at hk
    by_cases h : strLe k k'
    · simp [insortEntry, h, hasDup, hasKey, hk.1, hk.2, hd.1, hd.2]
    · simp [insortEntry, h, hasDup, insortEntry_hasKey, hd.2,
        insortEntry_noDup k v t hd.2 hk.2, hd.1]
      intro he
      exact absurd (he ▸ hk.1) (by simp)

theorem sortEntries_noDup : ∀ es : JObj, hasDup es = false → hasDup (sortEntries es) = false
  | .nil, _ => rfl
  | .cons k v t, hd => by
    simp [hasDup] at hd
    exact insortEntry_noDup k v (sortEntries t) (sortEntries_noDup t hd.2)
      (by rw [sortEntries_hasKey]; exact hd.1)

theorem insortEntry_sortedLe (k : String) (v : Json) :
    ∀ es : JObj, sortedLe es = true → sortedLe (insortEntry k v es) = true
  | .nil, _ => rfl
  | .cons k' v' t, hs => by
    by_cases h : strLe k k'
    · simp [insortEntry, h, sortedLe, hs]
    · have hk : strLe k' k = true := by
        rcases strLe_total k k' with h' | h'
        · exact absurd h' h
        · exact h'
      cases t with
      | nil => simp [insortEntry, h, sortedLe, hk]
      | cons k2 v2 t2 =>
        simp [sortedLe] at hs
        have ih := insortEntry_sortedLe k v (.cons k2 v2 t2) hs.2
        by_cases h2 : strLe k k2
        · simp [insortEntry, h, h2, sortedLe, hk] at ih ⊢
          exact ih
        · simp [insortEntry, h, h2, sortedLe, hs.1] at ih ⊢
          exact ih

theorem sortEntries_sortedLe : ∀ es : JObj, sortedLe (sortEntries es) = true
  | .nil => rfl
  | .cons k v t => insortEntry_sortedLe k v (sortEntries t) (sortEntries_sortedLe t)

theorem insortEntry_memEntry (q : String) (w : Json) (k : String) (v : Json) :
    ∀ es : JObj, memEntry q w (insortEntry k v es) ↔ (q = k ∧ w = v) ∨ memEntry q w es
  | .nil => by simp [insortEntry, memEntry]
  | .cons k' v' t => by
    by_cases h : strLe k k'
    · simp [insortEntry, h, memEntry]
    · simp [insortEntry, h, memEntry, insortEntry_memEntry q w k v t]
      tauto

theorem sortEntries_memEntry (q : String) (w : Json) :
    ∀ es : JObj, memEntry q w (sortEntries es) ↔ memEntry q w es
  | .nil => Iff.rfl
  | .cons k v t => by
    simp [sortEntries, memEntry, insortEntry_memEntry, sortEntries_memEntry q w t]

theorem stripNulls_memEntry (q : String) (w : Json) :
    ∀ es : JObj, memEntry q w (stripNulls es) → memEntry q w es
  | .cons k .null t, h => Or.inr (stripNulls_memEntry q w t h)
  | .cons k (.bool b) t, h => by
    have ih := stripNulls_memEntry q w t
    simp [stripNulls, memEntry] at h ⊢
    tauto
  | .cons k (.int n) t, h => by
    have ih := stripNulls_memEntry q w t
    simp [stripNulls, memEntry] at h ⊢
    tauto
  | .cons k (.float r) t, h => by
    have ih := stripNulls_memEntry q w t
    simp [stripNulls, memEntry] at h ⊢
    tauto
  | .cons k (.str s) t, h => by
    have ih := stripNulls_memEntry q w t
    simp [stripNulls, memEntry] at h ⊢
    tauto
  | .cons k (.arr a) t, h => by
    have ih := stripNulls_memEntry q w t
    simp [stripNulls, memEntry] at h ⊢
    tauto
  | .cons k (.obj o) t, h => by
    have ih := stripNulls_memEntry q w t
    simp [stripNulls, memEntry] at h ⊢
    tauto

theorem stripNulls_hasKey (q : String) :
    ∀ es : JObj, hasKey q (stripNulls es) = true → hasKey q es = true
  | .cons k .null t, h => by
    simp [hasKey]
    exact Or.inr (stripNulls_hasKey q t h)
  | .cons k (.bool b) t, h => by
    have ih := stripNulls_hasKey q t
    simp [stripNulls, hasKey] at h ⊢
    tauto
  | .cons k (.int n) t, h => by
    have ih := stripNulls_hasKey q t
    simp [stripNulls, hasKey] at h ⊢
    tauto
  | .cons k (.float r) t, h => by
    have ih := stripNulls_hasKey q t
    simp [stripNulls, hasKey] at h ⊢
    tauto
  | .cons k (.str s) t, h => by
    have ih := stripNulls_hasKey q t
    simp [stripNulls, hasKey] at h ⊢
    tauto
  | .cons k (.arr a) t, h => by
    have ih := stripNulls_hasKey q t
    simp [stripNulls, hasKey] at h ⊢
    tauto
  | .cons k (.obj o) t, h => by
    have ih := stripNulls_hasKey q t
    simp [stripNulls, hasKey] at h ⊢
    tauto

theorem stripNulls_noDup : ∀ es : JObj, hasDup es = false → hasDup (stripNulls es) = false
  | .nil, _ => rfl
  | .cons k v t, hd => by
    simp [hasDup] at hd
    have ih := stripNulls_noDup t hd.2
    have hk : hasKey k (stripNulls t) = false := by
      cases h : hasKey k (stripNulls t)
      · rfl
      · exact absurd (stripNulls_hasKey k t h) (by simp [hd.1])
    cases v with
    | null => exact ih
    | bool b => simp [stripNulls, hasDup, hk, ih]
    | int n => simp [stripNulls, hasDup, hk, ih]
    | float r => simp [stripNulls, hasDup, hk, ih]
    | str s => simp [stripNulls, hasDup, hk, ih]
    | arr a => simp [stripNulls, hasDup, hk, ih]
    | obj o => simp [stripNulls, hasDup, hk, ih]

theorem stripNulls_noNulls : ∀ es : JObj, noNulls (stripNulls es) = true
  | .nil => rfl
  | .cons k .null t => stripNulls_noNulls t
  | .cons k (.bool b) t => by simpa [stripNulls, noNulls] using stripNulls_noNulls t
  | .cons k (.int n) t => by simpa [stripNulls, noNulls] using stripNulls_noNulls t
  | .cons k (.float r) t => by simpa [stripNulls, noNulls] using stripNulls_noNulls t
  | .cons k (.str s) t => by simpa [stripNulls, noNulls] using stripNulls_noNulls t
  | .cons k (.arr a) t => by simpa [stripNulls, noNulls] using stripNulls_noNulls t
  | .cons k (.obj o) t => by simpa [stripNulls, noNulls] using stripNulls_noNulls t

theorem noNulls_stripNulls_eq : ∀ es : JObj, noNulls es = true → stripNulls es = es
  | .nil, _ => rfl
  | .cons k .null t, h => by simp [noNulls] at h
  | .cons k (.bool b) t, h =>
    congrArg (JObj.cons k (.bool b)) (noNulls_stripNulls_eq t (by simpa [noNulls] using h))
  | .cons k (.int n) t, h =>
    congrArg (JObj.cons k (.int n)) (noNulls_stripNulls_eq t (by simpa [noNulls] using h))
  | .cons k (.float r) t, h =>
    congrArg (JObj.cons k (.float r)) (noNulls_stripNulls_eq t (by simpa [noNulls] using h))
  | .cons k (.str s) t, h =>
    congrArg (JObj.cons k (.str s)) (noNulls_stripNulls_eq t (by simpa [noNulls] using h))
  | .cons k (.arr a) t, h =>
    congrArg (JObj.cons k (.arr a)) (noNulls_stripNulls_eq t (by simpa [noNulls] using h))
  | .cons k (.obj o) t, h =>
    congrArg (JObj.cons k (.obj o)) (noNulls_stripNulls_eq t (by simpa [noNulls] using h))

theorem insortEntry_noNulls (k : String) (v : Json) (hv : v ≠ .null) :
    ∀ es : JObj, noNulls es = true → noNulls (insortEntry k v es) = true
  | .nil, _ => by cases v <;> simp_all [insortEntry, noNulls]
  | .cons k' v' t, h => by
    by_cases hle : strLe k k'
    · cases v <;> simp_all [insortEntry, hle, noNulls]
    · cases v' with
      | null => simp [noNulls] at h
      | bool b =>
        simp only [insortEntry, hle, if_false, noNulls]
        exact insortEntry_noNulls k v hv t (by simpa [noNulls] using h)
      | int n =>
        simp only [insortEntry, hle, if_false, noNulls]
        exact insortEntry_noNulls k v hv t (by simpa [noNulls] using h)
      | float r =>
        simp only [insortEntry, hle, if_false, noNulls]
        exact insortEntry_noNulls k v hv t (by simpa [noNulls] using h)
      | str s =>
        simp only [insortEntry, hle, if_false, noNulls]
        exact insortEntry_noNulls k v hv t (by simpa [noNulls] using h)
      | arr a =>
        simp only [insortEntry, hle, if_false, noNulls]
        exact insortEntry_noNulls k v hv t (by simpa [noNulls] using h)
      | obj o =>
        simp only [insortEntry, hle, if_false, noNulls]
        exact insortEntry_noNulls k v hv t (by simpa [noNulls] using h)

theorem sortEntries_noNulls : ∀ es : JObj, noNulls es = true → noNulls (sortEntries es) = true
  | .nil, _ => rfl
  | .cons k v t, h => by
    have hv : v ≠ .null := by
      intro he
      subst he
      simp [noNulls] at h
    have ht : noNulls t = true := by
      cases v <;> simp_all [noNulls]
    exact insortEntry_noNulls k v hv (sortEntries t) (sortEntries_noNulls t ht)

/-- A weakly sorted object with no duplicate keys is a fixed point of
`sortEntries`. -/
theorem sortEntries_fix : ∀ es : JObj,
    sortedLe es = true → hasDup es = false → sortEntries es = es
  | .nil, _, _ => rfl
  | .cons k v .nil, _, _ => rfl
  | .cons k v (.cons k' v' t), hs, hd => by
    simp [sortedLe] at hs
    simp [hasDup, hasKey] at hd
    have ih : sortEntries (.cons k' v' t) = .cons k' v' t :=
      sortEntries_fix (.cons k' v' t) hs.2 (by simp [hasDup, hd.1.2, hd.2])
    simp [sortEntries] at ih ⊢
    rw [ih]
    simp [insortEntry, hs.1]

theorem lookup_hasKey {q : String} {v : Json} :
    ∀ {es : JObj}, lookup q es = some v → hasKey q es = true
  | .cons k' v' t, h => by
    by_cases he : q = k'
    · simp [hasKey, he]
    · simp only [lookup, he, if_false] at h
      simp [hasKey, he, lookup_hasKey h]

theorem hasKey_eq_of_keys : ∀ {es fs : JObj}, keys es = keys fs →
    ∀ q, hasKey q es = hasKey q fs
  | .nil, .nil, _, _ => rfl
  | .nil, .cons _ _ _, h, _ => by simp [keys] at h
  | .cons _ _ _, .nil, h, _ => by simp [keys] at h
  | .cons k v t, .cons k' v' t', h, q => by
    simp only [keys, List.cons.injEq] at h
    simp [hasKey, h.1, hasKey_eq_of_keys h.2 q]

theorem hasDup_eq_of_keys : ∀ {es fs : JObj}, keys es = keys fs → hasDup es = hasDup fs
  | .nil, .nil, _ => rfl
  | .nil, .cons _ _ _, h => by simp [keys] at h
  | .cons _ _ _, .nil, h => by simp [keys] at h
  | .cons k v t, .cons k' v' t', h => by
    simp only [keys, List.cons.injEq] at h
    simp [hasDup, h.1, hasKey_eq_of_keys h.2, hasDup_eq_of_keys h.2]

theorem mapKeys_keys (f : String → String) :
    ∀ es : JObj, keys (mapKeys f es) = (keys es).map f
  | .nil => rfl
  | .cons k v t => by simp [mapKeys, keys, mapKeys_keys f t]

theorem hasKey_mapKeys_fix {nfc : String → String} (hn : NfcIdem nfc) :
    ∀ {es : JObj} {q : String}, hasKey q (mapKeys nfc es) = true → nfc q = q
  | .cons k v t, q, h => by
    simp only [mapKeys, hasKey, Bool.or_eq_true, beq_iff_eq] at h
    rcases h with h | h
    · subst h; exact hn k
    · exact @hasKey_mapKeys_fix _ hn t _ h

theorem mapKeys_id_of_fixed {f : String → String} :
    ∀ {es : JObj}, (∀ q, hasKey q es = true → f q = q) → mapKeys f es = es
  | .nil, _ => rfl
  | .cons k v t, h => by
    have hk : f k = k := h k (by simp [hasKey])
    have ht := @mapKeys_id_of_fixed _ t (fun q hq => h q (by simp [hasKey, hq]))
    simp [mapKeys, hk, ht]

theorem keysHaveCtl_false_iff : ∀ es : JObj,
    keysHaveCtl es = false ↔ ∀ q, hasKey q es = true → hasCtl q = false
  | .nil => by simp [keysHaveCtl, hasKey]
  | .cons k v t => by
    have ih := keysHaveCtl_false_iff t
    simp only [keysHaveCtl, hasKey, Bool.or_eq_false_iff, Bool.or_eq_true, beq_iff_eq, ih]
    constructor
    · rintro ⟨h1, h2⟩ q hq
      rcases hq with rfl | hq
      · exact h1
      · exact h2 q hq
    · intro h
      exact ⟨h k (Or.inl rfl), fun q hq => h q (Or.inr hq)⟩

theorem hasKey_cat (q : String) :
    ∀ a b : JObj, hasKey q (cat a b) = (hasKey q a || hasKey q b)
  | .nil, b => by simp [cat, hasKey]
  | .cons k v t, b => by
    simp [cat, hasKey, hasKey_cat q t b]
    cases q == k <;> simp

theorem mapKeys_cat (f : String → String) :
    ∀ a b : JObj, mapKeys f (cat a b) = cat (mapKeys f a) (mapKeys f b)
  | .nil, b => rfl
  | .cons k v t, b => by simp [cat, mapKeys, mapKeys_cat f t b]

theorem hasDup_cat_mark (k : String) (v : Json) :
    ∀ (pre rest : JObj), hasKey k rest = true → hasDup (cat pre (.cons k v rest)) = true
  | .nil, rest, h => by simp [cat, hasDup, h]
  | .cons k0 v0 p, rest, h => by
    simp [cat, hasDup, hasDup_cat_mark k v p rest h]

end JObj

/-! ## Lemmas about rho -/

theorem rhoEntries_keys (nfc : String → String) :
    ∀ {es es' : JObj}, rhoEntries nfc es = .ok es' → JObj.keys es' = (JObj.keys es).map nfc
  | .nil, es', h => by
    simp only [rhoEntries] at h
    cases h
    rfl
  | .cons k v t, es', h => by
    cases hv : rho nfc v with
    | error e => simp [rhoEntries, hv] at h
    | ok v' =>
      cases ht : rhoEntries nfc t with
      | error e => simp [rhoEntries, hv, ht] at h
      | ok t' =>
        simp only [rhoEntries, hv, ht] at h
        cases h
        simp [JObj.keys, rhoEntries_keys nfc ht]

theorem validAtom_spec {es : JObj} {w : Json} (h : validAtom es = some w) :
    (∃ m s, es.lookup "@num" = some (.str "dec/1") ∧ es.lookup "m" = some (.str m) ∧
      es.lookup "s" = some (.int s) ∧ isDecString m = true ∧ i32ok s = true ∧
      w = .obj (decAtom m s)) ∨
    (∃ p q, es.lookup "@num" = some (.str "rat/1") ∧ es.lookup "p" = some (.str p) ∧
      es.lookup "q" = some (.str q) ∧ isDecString p = true ∧ isDecString q = true ∧
      decStringIsZero q = false ∧ w = .obj (ratAtom p q)) := by
  unfold validAtom at h
  split at h
  case h_2 => exact absurd h (by simp)
  case h_1 tag hnum =>
    split at h
    case isTrue hdec =>
      subst hdec
      split at h
      case h_2 => exact absurd h (by simp)
      case h_1 m s hm hs =>
        split at h
        case isFalse => exact absurd h (by simp)
        case isTrue hc =>
          simp only [Bool.and_eq_true, decide_eq_true_eq] at hc
          cases h
          exact Or.inl ⟨m, s, hnum, hm, hs, hc.1.2, hc.2, rfl⟩
    case isFalse hdec =>
      split at h
      case isFalse => exact absurd h (by simp)
      case isTrue hrat =>
        subst hrat
        split at h
        case h_2 => exact absurd h (by simp)
        case h_1 p q hp hq =>
          split at h
          case isFalse => exact absurd h (by simp)
          case isTrue hc =>
            simp only [Bool.and_eq_true, Bool.not_eq_true', decide_eq_true_eq] at hc
            cases h
            exact Or.inr ⟨p, q, hnum, hp, hq, hc.1.1.2, hc.1.2, hc.2, rfl⟩

theorem validAtom_decAtom_fix {m : String} {s : Int}
    (hm : isDecString m = true) (hs : i32ok s = true) :
    validAtom (decAtom m s) = some (.obj (decAtom m s)) := by
  have h1 : JObj.lookup "@num" (decAtom m s) = some (.str "dec/1") := by
    simp [decAtom, JObj.lookup]
  have h2 : JObj.lookup "m" (decAtom m s) = some (.str m) := by
    simp [decAtom, JObj.lookup]
  have h3 : JObj.lookup "s" (decAtom m s) = some (.int s) := by
    simp [decAtom, JObj.lookup]
  have h4 : JObj.size (decAtom m s) = 3 := rfl
  simp [validAtom, h1, h2, h3, h4, hm, hs]

theorem validAtom_ratAtom_fix {p q : String}
    (hp : isDecString p = true) (hq : isDecString q = true)
    (hz : decStringIsZero q = false) :
    validAtom (ratAtom p q) = some (.obj (ratAtom p q)) := by
  have h1 : JObj.lookup "@num" (ratAtom p q) = some (.str "rat/1") := by
    simp [ratAtom, JObj.lookup]
  have h2 : JObj.lookup "p" (ratAtom p q) = some (.str p) := by
    simp [ratAtom, JObj.lookup]
  have h3 : JObj.lookup "q" (ratAtom p q) = some (.str q) := by
    simp [ratAtom, JObj.lookup]
  have h4 : JObj.size (ratAtom p q) = 3 := rfl
  simp [validAtom, h1, h2, h3, h4, hp, hq, hz]

theorem rho_atom_fix_dec {nfc : String → String} {m : String} {s : Int}
    (h1 : nfc "@num" = "@num") (h2 : nfc "m" = "m") (h3 : nfc "s" = "s")
    (hm : isDecString m = true) (hs : i32ok s = true) :
    rho nfc (.obj (decAtom m s)) = .ok (.obj (decAtom m s)) := by
  have hmap : JObj.mapKeys nfc (decAtom m s) = decAtom m s := by
    simp [decAtom, JObj.mapKeys, h1, h2, h3]
  have hdup : (decAtom m s).hasDup = false := by
    simp only [decAtom, JObj.hasDup, JObj.hasKey]
    decide
  have hctl : (decAtom m s).keysHaveCtl = false := by
    simp only [decAtom, JObj.keysHaveCtl]
    decide
  have hkey : (decAtom m s).hasKey "@num" = true := by
    simp only [decAtom, JObj.hasKey]
    decide
  simp [rho, hmap, hdup, hctl, hkey, validAtom_decAtom_fix hm hs]

theorem rho_atom_fix_rat {nfc : String → String} {p q : String}
    (h1 : nfc "@num" = "@num") (h2 : nfc "p" = "p") (h3 : nfc "q" = "q")
    (hp : isDecString p = true) (hq : isDecString q = true)
    (hz : decStringIsZero q = false) :
    rho nfc (.obj (ratAtom p q)) = .ok (.obj (ratAtom p q)) := by
  have hmap : JObj.mapKeys nfc (ratAtom p q) = ratAtom p q := by
    simp [ratAtom, JObj.mapKeys, h1, h2, h3]
  have hdup : (ratAtom p q).hasDup = false := by
    simp only [ratAtom, JObj.hasDup, JObj.hasKey]
    decide
  have hctl : (ratAtom p q).keysHaveCtl = false := by
    simp only [ratAtom, JObj.keysHaveCtl]
    decide
  have hkey : (ratAtom p q).hasKey "@num" = true := by
    simp only [ratAtom, JObj.hasKey]
    decide
  simp [rho, hmap, hdup, hctl, hkey, validAtom_ratAtom_fix hp hq hz]

theorem rhoEntries_fix {nfc : String → String} :
    ∀ {es : JObj}, (∀ q, JObj.hasKey q es = true → nfc q = q) →
      (∀ k v, JObj.memEntry k v es → rho nfc v = .ok v) →
      rhoEntries nfc es = .ok es
  | .nil, _, _ => rfl
  | .cons k v t, hk, hv => by
    have h1 : rho nfc v = .ok v := hv k v (Or.inl ⟨rfl, rfl⟩)
    have h2 : rhoEntries nfc t = .ok t :=
      rhoEntries_fix (fun q hq => hk q (by simp [JObj.hasKey, hq]))
        (fun k' v' hm => hv k' v' (Or.inr hm))
    have h3 : nfc k = k := hk k (by simp [JObj.hasKey])
    simp [rhoEntries, h1, h2, h3]

theorem rho_obj_fix {nfc : String → String} {X : JObj}
    (hfix : ∀ q, JObj.hasKey q X = true → nfc q = q)
    (hdup : X.hasDup = false) (hctl : X.keysHaveCtl = false)
    (hnum : X.hasKey "@num" = false)
    (hvals : ∀ k v, JObj.memEntry k v X → rho nfc v = .ok v)
    (hnn : X.noNulls = true) (hle : X.sortedLe = true) :
    rho nfc (.obj X) = .ok (.obj X) := by
  have hmap : JObj.mapKeys nfc X = X := JObj.mapKeys_id_of_fixed hfix
  have hent : rhoEntries nfc X = .ok X := rhoEntries_fix hfix hvals
  simp [rho, hmap, hdup, hctl, hnum, hent, JObj.noNulls_stripNulls_eq X hnn,
    JObj.sortEntries_fix X hle hdup]

mutual

/-- A successful output of rho is a fixed point of rho. -/
theorem rho_ok_fix {nfc : String → String} (hn : NfcIdem nfc) :
    ∀ {v w : Json}, rho nfc v = .ok w → rho nfc w = .ok w
  | .null, w, h => by
    simp only [rho] at h
    cases h
    rfl
  | .bool b, w, h => by
    simp only [rho] at h
    cases h
    rfl
  | .int n, w, h => by
    simp only [rho] at h
    cases h
    rfl
  | .float r, w, h => by simp [rho] at h
  | .str s, w, h => by
    by_cases hc : hasCtl (nfc s)
    · simp [rho, hc] at h
    · simp only [rho, hc, if_false] at h
      cases h
      simp [rho, hn s, hc]
  | .arr items, w, h => by
    cases ha : rhoArr nfc items with
    | error e => simp [rho, ha] at h
    | ok out =>
      simp only [rho, ha] at h
      cases h
      simp [rho, rhoArr_ok_fix hn ha]
  | .obj es, w, h => by
    by_cases hdup : (JObj.mapKeys nfc es).hasDup
    · simp [rho, hdup] at h
    · by_cases hctl : (JObj.mapKeys nfc es).keysHaveCtl
      · simp [rho, hdup, hctl] at h
      · by_cases hnum : (JObj.mapKeys nfc es).hasKey "@num"
        · cases hva : validAtom (JObj.mapKeys nfc es) with
          | none => simp [rho, hdup, hctl, hnum, hva] at h
          | some w0 =>
            simp only [rho, hdup, hctl, hnum, hva, if_true, if_false,
              Bool.not_eq_true] at h
            cases h
            rcases validAtom_spec hva with
              ⟨m, s, ha1, ha2, ha3, ham, has, rfl⟩ | ⟨p, q, ha1, ha2, ha3, hap, haq, haz, rfl⟩
            · exact rho_atom_fix_dec
                (JObj.hasKey_mapKeys_fix hn (JObj.lookup_hasKey ha1))
                (JObj.hasKey_mapKeys_fix hn (JObj.lookup_hasKey ha2))
                (JObj.hasKey_mapKeys_fix hn (JObj.lookup_hasKey ha3)) ham has
            · exact rho_atom_fix_rat
                (JObj.hasKey_mapKeys_fix hn (JObj.lookup_hasKey ha1))
                (JObj.hasKey_mapKeys_fix hn (JObj.lookup_hasKey ha2))
                (JObj.hasKey_mapKeys_fix hn (JObj.lookup_hasKey ha3)) hap haq haz
        · cases hent : rhoEntries nfc es with
          | error e => simp [rho, hdup, hctl, hnum, hent] at h
          | ok es2 =>
            simp only [rho, hdup, hctl, hnum, hent, if_true, if_false,
              Bool.not_eq_true] at h
            cases h
            have hkeys2 : JObj.keys es2 = JObj.keys (JObj.mapKeys nfc es) := by
              rw [rhoEntries_keys nfc hent, JObj.mapKeys_keys]
            have hdup2 : es2.hasDup = false := by
              rw [JObj.hasDup_eq_of_keys hkeys2]
              exact Bool.not_eq_true _ ▸ hdup
            have hXkey : ∀ q, JObj.hasKey q (JObj.sortEntries (JObj.stripNulls es2)) = true →
                JObj.hasKey q (JObj.mapKeys nfc es) = true := by
              intro q hq
              rw [JObj.sortEntries_hasKey] at hq
              rw [← JObj.hasKey_eq_of_keys hkeys2 q]
              exact JObj.stripNulls_hasKey q es2 hq
            refine rho_obj_fix ?_ ?_ ?_ ?_ ?_ ?_ ?_
            · exact fun q hq => JObj.hasKey_mapKeys_fix hn (hXkey q hq)
            · exact JObj.sortEntries_noDup _ (JObj.stripNulls_noDup _ hdup2)
            · rw [JObj.keysHaveCtl_false_iff]
              intro q hq
              exact ((JObj.keysHaveCtl_false_iff _).mp (Bool.not_eq_true _ ▸ hctl)) q (hXkey q hq)
            · cases hx : JObj.hasKey "@num" (JObj.sortEntries (JObj.stripNulls es2))
              · rfl
              · exact absurd (hXkey _ hx) (by simpa using hnum)
            · intro k v hm
              rw [JObj.sortEntries_memEntry] at hm
              exact rhoEntries_vals_fix hn hent k v (JObj.stripNulls_memEntry k v es2 hm)
            · exact JObj.sortEntries_noNulls _ (JObj.stripNulls_noNulls es2)
            · exact JObj.sortEntries_sortedLe _

/-- Elements of a successful array output are fixed points of rho. -/
theorem rhoArr_ok_fix {nfc : String → String} (hn : NfcIdem nfc) :
    ∀ {as bs : JArr}, rhoArr nfc as = .ok bs → rhoArr nfc bs = .ok bs
  | .nil, bs, h => by
    simp only [rhoArr] at h
    cases h
    rfl
  | .cons v t, bs, h => by
    cases hv : rho nfc v with
    | error e => simp [rhoArr, hv] at h
    | ok v' =>
      cases ht : rhoArr nfc t with
      | error e => simp [rhoArr, hv, ht] at h
      | ok t' =>
        simp only [rhoArr, hv, ht] at h
        cases h
        simp [rhoArr, rho_ok_fix hn hv, rhoArr_ok_fix hn ht]

/-- Values of a successful entry-canonicalization are fixed points of rho. -/
theorem rhoEntries_vals_fix {nfc : String → String} (hn : NfcIdem nfc) :
    ∀ {es es' : JObj}, rhoEntries nfc es = .ok es' →
      ∀ k v, JObj.memEntry k v es' → rho nfc v = .ok v
  | .nil, es', h, k, v, hm => by
    simp only [rhoEntries] at h
    cases h
    cases hm
  | .cons k0 v0 t, es', h, k, v, hm => by
    cases hv : rho nfc v0 with
    | error e => simp [rhoEntries, hv] at h
    | ok v' =>
      cases ht : rhoEntries nfc t with
      | error e => simp [rhoEntries, hv, ht] at h
      | ok t' =>
        simp only [rhoEntries, hv, ht] at h
        cases h
        rcases hm with ⟨_, rfl⟩ | hm
        · exact rho_ok_fix hn hv
        · exact rhoEntries_vals_fix hn ht k v hm

end

/-- C1: an object whose entry list contains, at two different positions,
keys `k1` and `k2` with the same NFC normalization makes rho fail with the
hard `DuplicateKeyAfterNFC` error (in particular it never returns a value
in which the colliding keys were merged). -/
theorem rho_nfc_collision_is_hard_error (nfc : String → String)
    (pre mid post : JObj) (k1 k2 : String) (v1 v2 : Json)
    (es : JObj)
    (hshape : es = JObj.cat pre (.cons k1 v1 (JObj.cat mid (.cons k2 v2 post))))
    (hne : k1 ≠ k2) (hcol : nfc k1 = nfc k2) :
    rho nfc (.obj es) = .error .duplicateKeyAfterNFC := by
  subst hshape
  have hdup : (JObj.mapKeys nfc (JObj.cat pre
      (.cons k1 v1 (JObj.cat mid (.cons k2 v2 post))))).hasDup = true := by
    rw [JObj.mapKeys_cat]
    simp only [JObj.mapKeys]
    refine JObj.hasDup_cat_mark (nfc k1) v1 _ _ ?_
    rw [JObj.mapKeys_cat, JObj.hasKey_cat]
    simp [JObj.mapKeys, JObj.hasKey, hcol]
  simp [rho, hdup]

/-- C1 witness: the contract-vector pair, decomposed "Cafe" + combining
acute against precomposed form, under the toy normalization that maps the
first to the second. -/
theorem rho_nfc_collision_is_hard_error_witness :
    rho nfcToy (.obj (.cons "Cafe\u0301" (.int 1) (.cons "Caf\u00e9" (.int 2) .nil))) =
      .error .duplicateKeyAfterNFC :=
  rho_nfc_collision_is_hard_error nfcToy .nil .nil .nil "Cafe\u0301" "Caf\u00e9"
    (.int 1) (.int 2) _ rfl (by decide) (by decide)

/-- C2: canonicalization is idempotent, in the Kleisli sense that covers
both outcomes: feeding the result of rho back into rho changes nothing
(on success the canonical value is a fixed point, and an error propagates). -/
theorem rho_idempotent {nfc : String → String} (hn : NfcIdem nfc) (v : Json) :
    (rho nfc v).bind (rho nfc) = rho nfc v := by
  cases h : rho nfc v with
  | error e => rfl
  | ok w =>
    have := rho_ok_fix hn h
    simp [Except.bind, this]

/-- C2 witness: the identity normalization is idempotent, and a sample
unsorted object with a null entry and nested values canonicalizes to the
same result under one and two applications of rho. -/
theorem rho_idempotent_witness :
    (rho (fun s => s) (.obj (.cons "z" (.int 3) (.cons "b" .null
        (.cons "a" (.arr (.cons .null (.cons (.str "x") .nil))) .nil))))).bind
        (rho (fun s => s)) =
      rho (fun s => s) (.obj (.cons "z" (.int 3) (.cons "b" .null
        (.cons "a" (.arr (.cons .null (.cons (.str "x") .nil))) .nil)))) :=
  rho_idempotent (fun s => rfl) _

/-- C3: the knock validator reports KNOCK-005 exactly on invalid UTF-8:
every non-UTF-8 input fails with the invalid-UTF-8 error; an input that is
valid UTF-8 never yields that error, and in particular a parse failure is
reported as KNOCK-010 and a non-object root as KNOCK-007.  The wire codes
of the three reasons are as listed. -/
theorem knock_utf8_classification (parse : List Nat → Option Json)
    (nfc : String → String) (maxDepth maxArrLen : Nat) :
    (∀ bytes, validUtf8 bytes = false →
      knock parse nfc maxDepth maxArrLen bytes = .error .invalidUtf8) ∧
    (∀ bytes, validUtf8 bytes = true →
      knock parse nfc maxDepth maxArrLen bytes ≠ .error .invalidUtf8) ∧
    (∀ bytes, validUtf8 bytes = true → parse bytes = none →
      knock parse nfc maxDepth maxArrLen bytes = .error .parseFailure) ∧
    (∀ bytes v, validUtf8 bytes = true → parse bytes = some v → v.isObj = false →
      knock parse nfc maxDepth maxArrLen bytes = .error .nonObjectRoot) ∧
    KnockError.code .invalidUtf8 = "KNOCK-005" ∧
    KnockError.code .parseFailure = "KNOCK-010" ∧
    KnockError.code .nonObjectRoot = "KNOCK-007" := by
  refine ⟨?_, ?_, ?_, ?_, rfl, rfl, rfl⟩
  · intro bytes h
    simp [knock, h]
  · intro bytes h
    simp only [knock, h]
    cases hp : parse bytes with
    | none => simp
    | some v =>
      simp only
      repeat' split
      all_goals simp_all
  · intro bytes h hp
    simp [knock, h, hp]
  · intro bytes v h hp hv
    simp [knock, h, hp, hv]

/-- C3 witness: a lone 0xFF byte is rejected as invalid UTF-8; a valid
UTF-8 byte string that the parser rejects is a parse failure; a valid
UTF-8 byte string parsed to an array root is a non-object-root failure. -/
theorem knock_utf8_classification_witness :
    knock (fun _ => none) (fun s => s) 64 10000 [255] = .error .invalidUtf8 ∧
    knock (fun _ => none) (fun s => s) 64 10000 [123, 125] = .error .parseFailure ∧
    knock (fun _ => some (.arr .nil)) (fun s => s) 64 10000 [91, 93] =
      .error .nonObjectRoot :=
  ⟨(knock_utf8_classification (fun _ => none) (fun s => s) 64 10000).1 [255] (by decide),
   (knock_utf8_classification (fun _ => none) (fun s => s) 64 10000).2.2.1 [123, 125]
     (by decide) rfl,
   (knock_utf8_classification (fun _ => some (.arr .nil)) (fun s => s) 64 10000).2.2.2.1
     [91, 93] (.arr .nil) (by decide) rfl rfl⟩

/-! ## String append helpers for message decompositions -/

theorem strExt : ∀ {a b : String}, a.data = b.data → a = b
  | ⟨_⟩, ⟨_⟩, h => congrArg String.mk h

theorem strDataAppend : ∀ a b : String, (a ++ b).data = a.data ++ b.data
  | ⟨_⟩, ⟨_⟩ => rfl

/-- C4 counterexample: with `wasm_sha256 = "zz"` and `abi_version = "2.0"`
in the adapter, `parse_optional` reports the hash-shape failure, not the
unsupported-version failure — so the version check is not decided before
the 64-hex check. -/
theorem parse_optional_hash_check_decided_first :
    parse_optional c4Body =
      .error (.invalidChip
        "WASM_VERIFY_HASH_MISMATCH: adapter.wasm_sha256 must be 64 hex chars") ∧
    parse_optional c4Body ≠
      .error (.invalidChip
        "WASM_ABI_UNSUPPORTED_VERSION: adapter.abi_version unsupported: 2.0") := by
  have h1 : parse_optional c4Body =
      .error (.invalidChip
        "WASM_VERIFY_HASH_MISMATCH: adapter.wasm_sha256 must be 64 hex chars") := rfl
  refine ⟨h1, ?_⟩
  rw [h1]
  intro h
  have h2 := Except.error.inj h
  have h3 := PipelineError.invalidChip.inj h2
  exact absurd h3 (by decide)

/-- C4 (amended): whenever the adapter object is present with a string
`wasm_sha256` that passes the 64-hex shape check and a string
`abi_version` different from `"1.0"`, parsing aborts with `InvalidChip`
carrying `WASM_ABI_UNSUPPORTED_VERSION`; the 64-hex shape check is decided
first, so the version error is reached only for a well-shaped hash. -/
theorem parse_optional_unsupported_version {body adapter : Json} {h64 ver : String}
    (hb : body.get "adapter" = some adapter)
    (ha : adapter.isObj = true)
    (h1 : (adapter.get "wasm_sha256").bind Json.asStr = some h64)
    (h2 : is64Hex h64 = true)
    (h3 : (adapter.get "abi_version").bind Json.asStr = some ver)
    (h4 : ver ≠ "1.0") :
    parse_optional body = .error (.invalidChip
      ("WASM_ABI_UNSUPPORTED_VERSION: adapter.abi_version unsupported: " ++ ver)) := by
  simp [parse_optional, hb, ha, h1, h2, h3, h4]

/-- C4 witness: a well-shaped (64 hex zeros) hash with `abi_version "9.9"`
yields the unsupported-version error. -/
theorem parse_optional_unsupported_version_witness :
    parse_optional (.obj (.cons "adapter" (.obj (.cons "wasm_sha256"
        (.str "0000000000000000000000000000000000000000000000000000000000000000")
        (.cons "abi_version" (.str "9.9") .nil))) .nil)) =
      .error (.invalidChip
        "WASM_ABI_UNSUPPORTED_VERSION: adapter.abi_version unsupported: 9.9") :=
  parse_optional_unsupported_version rfl rfl rfl (by decide) rfl (by decide)

/-- C5: the `@id` of every emitted hub event equals
`evt:<receipt_cid>:<stage>:<in>:<out>` with missing CIDs rendered empty,
hence it is a pure function of `(receipt_cid, stage, input_cid,
output_cid)`: two events agreeing on the tuple carry identical ids. -/
theorem hub_event_id_deterministic :
    (∀ e : ReceiptEvent, (to_hub_event e).get "@id" =
      some (.str ("evt:" ++ e.receipt_cid ++ ":" ++ normalize_stage e.pipeline_stage ++
        ":" ++ e.input_cid.getD "" ++ ":" ++ e.output_cid.getD ""))) ∧
    (∀ e1 e2 : ReceiptEvent, e1.receipt_cid = e2.receipt_cid →
      normalize_stage e1.pipeline_stage = normalize_stage e2.pipeline_stage →
      e1.input_cid = e2.input_cid → e1.output_cid = e2.output_cid →
      (to_hub_event e1).get "@id" = (to_hub_event e2).get "@id") := by
  have hget : ∀ e : ReceiptEvent, (to_hub_event e).get "@id" =
      some (.str (deterministic_event_id e (normalize_stage e.pipeline_stage))) := by
    intro e
    simp [to_hub_event, Json.get, Json.get.go]
  refine ⟨?_, ?_⟩
  · intro e
    rw [hget e]
    rfl
  · intro e1 e2 hc hs hi ho
    rw [hget e1, hget e2]
    simp [deterministic_event_id, hc, hs, hi, ho]

/-- C5 witness: two events with equal `(receipt_cid, stage, input_cid,
output_cid)` (one spelling the stage `wf`, the other `WF`) and every other
field different produce the same event id. -/
theorem hub_event_id_deterministic_witness :
    (to_hub_event evSampleA).get "@id" = (to_hub_event evSampleB).get "@id" :=
  hub_event_id_deterministic.2 evSampleA evSampleB rfl rfl rfl rfl

/-- C6: the subject DID is the first of `body.actor.did`, `body.did`,
`body.owner_did` whose string value starts with `did:`; with no explicit
DID it is `did:ubl:anon:` followed by the fingerprint of the claims object
assembled from the stable actor string fields
(installation_key, client_pubkey, device_id, session_id, kid) plus the
optional ip_prefix / user_agent_hash transport hints. -/
theorem resolve_subject_did_spec (cidOf : JObj → String) (b : Json)
    (hint : Option ActorHint) :
    (∀ d, (((b.get "actor").bind (fun a => a.get "did")).bind Json.asStr) = some d →
      strStarts d "did:" = true →
      resolve_subject_did cidOf (some b) hint = d) ∧
    (∀ d, didFilter (((b.get "actor").bind (fun a => a.get "did")).bind Json.asStr) = none →
      ((b.get "did").bind Json.asStr) = some d → strStarts d "did:" = true →
      resolve_subject_did cidOf (some b) hint = d) ∧
    (∀ d, didFilter (((b.get "actor").bind (fun a => a.get "did")).bind Json.asStr) = none →
      didFilter ((b.get "did").bind Json.asStr) = none →
      ((b.get "owner_did").bind Json.asStr) = some d → strStarts d "did:" = true →
      resolve_subject_did cidOf (some b) hint = d) ∧
    (didFilter (((b.get "actor").bind (fun a => a.get "did")).bind Json.asStr) = none →
      didFilter ((b.get "did").bind Json.asStr) = none →
      didFilter ((b.get "owner_did").bind Json.asStr) = none →
      resolve_subject_did cidOf (some b) hint =
        "did:ubl:anon:" ++ cidOf (JObj.cat (claimsFromActor (some b))
          (match hint with
           | some h => hintEntries h
           | none => .nil))) := by
  have hres : ∀ r, extract_explicit_did b = r →
      resolve_subject_did cidOf (some b) hint =
        (match r with
         | some did => did
         | none => "did:ubl:anon:" ++ cidOf (anonClaims (some b) hint)) := by
    intro r hr
    unfold resolve_subject_did
    rw [show Option.bind (some b) extract_explicit_did = extract_explicit_did b from rfl, hr]
  refine ⟨?_, ?_, ?_, ?_⟩
  · intro d h1 h2
    have he : extract_explicit_did b = some d := by
      unfold extract_explicit_did
      rw [h1]
      simp [didFilter, h2]
    exact hres (some d) he
  · intro d h1 h2 h3
    have he : extract_explicit_did b = some d := by
      unfold extract_explicit_did
      rw [h1, h2]
      simp [didFilter, h3]
    exact hres (some d) he
  · intro d h1 h2 h3 h4
    have he : extract_explicit_did b = some d := by
      unfold extract_explicit_did
      rw [h1, h2, h3]
      simp [didFilter, h4]
    exact hres (some d) he
  · intro h1 h2 h3
    have he : extract_explicit_did b = none := by
      unfold extract_explicit_did
      rw [h1, h2, h3]
    exact hres none he

/-- C6 witness: a body with an explicit `actor.did` resolves to it, and a
body with only stable actor fields resolves to the anonymous DID over the
assembled claims (with both transport hints present). -/
theorem resolve_subject_did_spec_witness :
    resolve_subject_did (fun _ => "b3:claims")
      (some (.obj (.cons "actor" (.obj (.cons "did" (.str "did:key:zActor") .nil)) .nil)))
      none = "did:key:zActor" ∧
    resolve_subject_did (fun _ => "b3:claims")
      (some (.obj (.cons "actor" (.obj (.cons "installation_key" (.str "inst-123")
        (.cons "device_id" (.str "dev-1") .nil))) .nil)))
      (some { ip_pfx := some "10.0.0.*", user_agent_hash := some "b3:ua" }) =
      "did:ubl:anon:b3:claims" :=
  ⟨(resolve_subject_did_spec (fun _ => "b3:claims") _ none).1 "did:key:zActor" rfl
      (by decide),
   (resolve_subject_did_spec (fun _ => "b3:claims") _
      (some { ip_pfx := some "10.0.0.*", user_agent_hash := some "b3:ua" })).2.2.2
      rfl rfl rfl⟩

/-- C7: `authorize_write` succeeds exactly when auth is not required and no
keys are configured, or the presented API key is in the allowlist, or the
chip type is an onboarding type, or the `(world, type)` pair is publicly
writable; in every other case it returns the `Unauthorized` error with its
denial message. -/
theorem authorize_write_characterization (isOnboarding : String → Bool)
    (pol : WriteAccessPolicy) (headers : Option Headers) (chip_type world : String) :
    (authorize_write isOnboarding pol headers chip_type world = .ok () ↔
      ((pol.auth_required = false ∧ pol.api_keys = []) ∨
       matches_api_key pol headers = true ∨
       isOnboarding chip_type = true ∨
       (world ∈ pol.public_worlds ∧ chip_type ∈ pol.public_types))) ∧
    (¬ ((pol.auth_required = false ∧ pol.api_keys = []) ∨
       matches_api_key pol headers = true ∨
       isOnboarding chip_type = true ∨
       (world ∈ pol.public_worlds ∧ chip_type ∈ pol.public_types)) →
      authorize_write isOnboarding pol headers chip_type world =
        .error (.unauthorized, authorize_write_deny_msg chip_type world)) := by
  have hpub : allows_public_unauthenticated isOnboarding pol chip_type world = true ↔
      (isOnboarding chip_type = true ∨
       (world ∈ pol.public_worlds ∧ chip_type ∈ pol.public_types)) := by
    by_cases ho : isOnboarding chip_type <;> simp [allows_public_unauthenticated, ho]
  have hfree : (!pol.auth_required && pol.api_keys.isEmpty) = true ↔
      (pol.auth_required = false ∧ pol.api_keys = []) := by
    simp [List.isEmpty_iff]
  have hmain : authorize_write isOnboarding pol headers chip_type world = .ok () ↔
      ((pol.auth_required = false ∧ pol.api_keys = []) ∨
       matches_api_key pol headers = true ∨
       isOnboarding chip_type = true ∨
       (world ∈ pol.public_worlds ∧ chip_type ∈ pol.public_types)) := by
    unfold authorize_write
    by_cases h1 : (!pol.auth_required && pol.api_keys.isEmpty) = true
    · rw [if_pos h1]
      exact iff_of_true rfl (Or.inl (hfree.mp h1))
    · rw [if_neg h1]
      by_cases h2 : matches_api_key pol headers = true
      · rw [if_pos h2]
        exact iff_of_true rfl (Or.inr (Or.inl h2))
      · rw [if_neg h2]
        by_cases h3 : allows_public_unauthenticated isOnboarding pol chip_type world = true
        · rw [if_pos h3]
          exact iff_of_true rfl (Or.inr (Or.inr (hpub.mp h3)))
        · rw [if_neg h3]
          refine iff_of_false (by simp) ?_
          rintro (hc | hc | hc | hc)
          · exact h1 (hfree.mpr hc)
          · exact h2 hc
          · exact h3 (hpub.mpr (Or.inl hc))
          · exact h3 (hpub.mpr (Or.inr hc))
  refine ⟨hmain, fun hno => ?_⟩
  have h1 : ¬ (!pol.auth_required && pol.api_keys.isEmpty) = true := fun hc =>
    hno (Or.inl (hfree.mp hc))
  have h2 : ¬ matches_api_key pol headers = true := fun hc => hno (Or.inr (Or.inl hc))
  have h3 : ¬ allows_public_unauthenticated isOnboarding pol chip_type world = true :=
    fun hc => hno (Or.inr (Or.inr (hpub.mp hc)))
  unfold authorize_write
  rw [if_neg h1, if_neg h2, if_neg h3]

/-- C7 witness: with auth required, no keys, no headers, a non-onboarding
type and empty public lists, the write is refused with `Unauthorized`. -/
theorem authorize_write_characterization_witness :
    authorize_write (fun _ => false)
      { auth_required := true, api_keys := [], public_worlds := [], public_types := [] }
      none "ubl/document" "a/x/t/y" =
      .error (.unauthorized, authorize_write_deny_msg "ubl/document" "a/x/t/y") :=
  (authorize_write_characterization (fun _ => false)
      { auth_required := true, api_keys := [], public_worlds := [], public_types := [] }
      none "ubl/document" "a/x/t/y").2 (by simp [matches_api_key])

/-- C8 counterexample: the claim's rule (after trimming, `S = "*"` or
`S = W` or slash-prefix) authorizes the empty target under the wildcard
scope, but `world_scope_allows` rejects every empty (trimmed) string. -/
theorem world_scope_allows_empty_counterexample :
    world_scope_allows_spec "*" "" = true ∧ world_scope_allows "*" "" = false :=
  ⟨rfl, rfl⟩

theorem charsPre_cat (p q t : List Char) :
    charsPre (p ++ q) t = (charsPre p t && charsPre q (t.drop p.length)) := by
  induction p generalizing t with
  | nil => simp [charsPre]
  | cons a ps ih =>
    cases t with
    | nil => simp [charsPre]
    | cons b ts =>
      by_cases hab : a = b
      · simp [charsPre, hab, ih ts]
      · simp [charsPre, hab]

/-- C8 (amended): a bearer token world `S` authorizes target world `W`
exactly when, after trimming whitespace and trailing slashes from both,
both strings are non-empty and `S` is `*`, or `S = W`, or `W` starts with
`S` followed by `/`.  When this check fails for a token whose scope allows
writing, the bearer branch of `submit_chip_bytes` denies the write through
`deny_write_with_receipt`: the gate responds 403 with code `POLICY_DENIED`,
attaches the stored deny receipt with `decision:"Deny"`, and the message
contains "does not authorize target world". -/
theorem world_scope_allows_amended (s w : String) :
    (world_scope_allows s w = true ↔
      (strTrimEnd '/' (strTrim s) ≠ "" ∧ strTrimEnd '/' (strTrim w) ≠ "" ∧
       (strTrimEnd '/' (strTrim s) = "*" ∨
        strTrimEnd '/' (strTrim w) = strTrimEnd '/' (strTrim s) ∨
        strStarts (strTrimEnd '/' (strTrim w))
          (strTrimEnd '/' (strTrim s) ++ "/") = true))) ∧
    (∀ (processKnock : String → String → String → String →
         Except (ErrorCode × String) KnockRejection)
       (token_id token_cid : String) (scope : List String)
       (subject_did : Option String) (knock_cid fallback_did : String)
       (r : KnockRejection),
      scope_allows_any scope ["write", "chip:write", "mcp:write"] = true →
      world_scope_allows s w = false →
      processKnock knock_cid (ErrorCode.wire .policyDenied)
        (token_world_deny_message s w) (subject_did.getD fallback_did) = .ok r →
      ∃ resp,
        bearer_write_gate processKnock
          ⟨token_id, token_cid, s, scope, subject_did⟩ w knock_cid fallback_did =
          .error resp ∧
        resp.status = 403 ∧
        resp.code = "POLICY_DENIED" ∧
        resp.decision = some "Deny" ∧
        resp.receipt = some r.receipt_json ∧
        resp.receipt_cid = some r.receipt_cid ∧
        ∃ a b, resp.message = a ++ "does not authorize target world" ++ b) := by
  refine ⟨?_, ?_⟩
  · set sc := strTrimEnd '/' (strTrim s) with hsc
    set tg := strTrimEnd '/' (strTrim w) with htg
    have hsplit : strStarts tg (sc ++ "/") =
        (strStarts tg sc && strStarts (strDropN tg sc.data.length) "/") := by
      show charsPre (sc ++ "/").data tg.data = _
      rw [strDataAppend]
      rw [charsPre_cat]
      rfl
    by_cases hse : sc == ""
    · simp only [world_scope_allows, ← hsc, ← htg, hse, Bool.true_or, if_true]
      constructor
      · intro h
        exact absurd h (by simp)
      · intro ⟨h1, _, _⟩
        exact absurd (by simpa using hse) h1
    · by_cases hte : tg == ""
      · simp only [world_scope_allows, ← hsc, ← htg, hse, hte, Bool.or_true, if_true]
        constructor
        · intro h
          exact absurd h (by simp)
        · intro ⟨_, h2, _⟩
          exact absurd (by simpa using hte) h2
      · have hne1 : sc ≠ "" := by simpa using hse
        have hne2 : tg ≠ "" := by simpa using hte
        by_cases hstar : sc == "*"
        · simp only [world_scope_allows, ← hsc, ← htg, hse, hte, hstar,
            Bool.or_self, Bool.or_false, if_false, if_true]
          simp [hne1, hne2, (by simpa using hstar : sc = "*")]
        · by_cases heq : tg == sc
          · simp only [world_scope_allows, ← hsc, ← htg, hse, hte, hstar, heq,
              Bool.or_self, Bool.or_false, if_false, if_true]
            simp [hne1, hne2, (by simpa using heq : tg = sc)]
          · simp only [world_scope_allows, ← hsc, ← htg, hse, hte, hstar, heq,
              Bool.or_self, Bool.or_false, if_false]
            by_cases hpre : strStarts tg sc = true
            · rw [if_pos hpre]
              rw [hsplit, hpre]
              simp [hne1, hne2, (by simpa using hstar : sc ≠ "*"),
                (by simpa using heq : tg ≠ sc)]
            · rw [if_neg (by simpa using hpre)]
              rw [hsplit]
              simp [hne1, hne2, (by simpa using hstar : sc ≠ "*"),
                (by simpa using heq : tg ≠ sc), hpre]
  · intro processKnock token_id token_cid scope subject_did knock_cid fallback_did r
      hscope hfail hproc
    have hgate : bearer_write_gate processKnock
        ⟨token_id, token_cid, s, scope, subject_did⟩ w knock_cid fallback_did =
        .error { status := 403, code := "POLICY_DENIED",
                 message := token_world_deny_message s w, decision := some "Deny",
                 receipt := some r.receipt_json,
                 receipt_cid := some r.receipt_cid } := by
      simp only [bearer_write_gate, hscope, hfail, Bool.not_false, if_true,
        deny_write_with_receipt, hproc]
      rfl
    refine ⟨_, hgate, rfl, rfl, rfl, rfl, rfl, ?_⟩
    refine ⟨"token world " ++ sq ++ s ++ sq ++ " ", " " ++ sq ++ w ++ sq, ?_⟩
    apply strExt
    simp [token_world_deny_message, strDataAppend, List.append_assoc]

/-- C8 witness: the wildcard scope authorizes a real target world; a
`write`-scoped token on `a/chip-registry/t/public` fails to authorize the
disjoint target `a/private/t/main`, and the bearer gate then denies with
403, `POLICY_DENIED`, the stored deny receipt with `decision:"Deny"`, and
the offending-world message. -/
theorem world_scope_allows_amended_witness :
    world_scope_allows "*" "a/private/t/main" = true ∧
    (∃ resp,
      bearer_write_gate (fun _ _ _ _ => .ok sampleRejection)
        ⟨"tok-1", "b3:tok", "a/chip-registry/t/public", ["write"], none⟩
        "a/private/t/main" "b3:knock" "did:ubl:anon:fb" = .error resp ∧
      resp.status = 403 ∧
      resp.code = "POLICY_DENIED" ∧
      resp.decision = some "Deny" ∧
      resp.receipt = some sampleRejection.receipt_json ∧
      resp.receipt_cid = some sampleRejection.receipt_cid ∧
      ∃ a b, resp.message = a ++ "does not authorize target world" ++ b) :=
  ⟨(world_scope_allows_amended "*" "a/private/t/main").1.mpr
      (by refine ⟨by decide, by decide, Or.inl (by decide)⟩),
   (world_scope_allows_amended "a/chip-registry/t/public" "a/private/t/main").2
      (fun _ _ _ _ => .ok sampleRejection) "tok-1" "b3:tok" ["write"] none
      "b3:knock" "did:ubl:anon:fb" sampleRejection (by decide) (by decide) rfl⟩

/-- C9: on a receipt or chip GET whose `If-None-Match` value matches the
requested CID (quoted or bare), the handler answers 304 Not Modified for
every store content and every verification outcome — the short-circuit is
decided before any lookup or auth-chain check. -/
theorem if_none_match_shortcircuits
    (store : Option (String → StoreFetch)) (verify : String → Json → Bool)
    (chipFetch : String → StoreFetch) (cid inm : String)
    (hcid : strStarts cid "b3:" = true)
    (hmatch : inm = "\"" ++ cid ++ "\"" ∨ strTrimBoth '"' inm = cid) :
    get_receipt store verify cid (some inm) = { status := 304, code := none } ∧
    get_chip chipFetch cid (some inm) = { status := 304, code := none } := by
  have hm : inmMatches cid inm = true := by
    rcases hmatch with h | h <;> simp [inmMatches, h]
  exact ⟨by simp [get_receipt, hcid, hm], by simp [get_chip, hcid, hm]⟩

/-- C9 witness: with a store that has no such record and a verifier that
would reject everything, a matching `If-None-Match` still yields 304 on
both handlers. -/
theorem if_none_match_shortcircuits_witness :
    get_receipt (some (fun _ => .missing)) (fun _ _ => false) "b3:aa"
      (some "\"b3:aa\"") = { status := 304, code := none } ∧
    get_chip (fun _ => .failed "down") "b3:aa" (some "\"b3:aa\"") =
      { status := 304, code := none } :=
  if_none_match_shortcircuits (some (fun _ => .missing)) (fun _ _ => false)
    (fun _ => .failed "down") "b3:aa" "\"b3:aa\"" (by decide) (Or.inl rfl)

/-- C10: with no configured outbox endpoint, delivery returns `Ok` without
invoking the HTTP send at all (the pending event counts as delivered and
is dropped); with an endpoint, delivery succeeds exactly when the send
succeeds with a 2xx status. -/
theorem deliver_emit_receipt_event_spec :
    (∀ (send : String → Json → Except String HttpResponse) (event : OutboxEvent),
      deliver_emit_receipt_event send none event = .ok ()) ∧
    (∀ (send : String → Json → Except String HttpResponse) (ep : String)
        (event : OutboxEvent),
      deliver_emit_receipt_event send (some ep) event = .ok () ↔
        ∃ r, send ep (outbox_payload event) = .ok r ∧ is_success r.status = true) := by
  refine ⟨fun _ _ => rfl, ?_⟩
  intro send ep event
  cases hs : send ep (outbox_payload event) with
  | error e =>
    simp [deliver_emit_receipt_event, hs]
  | ok r =>
    by_cases hr : is_success r.status
    · simp [deliver_emit_receipt_event, hs, hr]
    · simp [deliver_emit_receipt_event, hs, hr]

end UBL
